import Mathlib

/-!
# Kanki iRODS client: the AVU metadata container `RodsObjMetadata`

A shallow embedding of `src/rodsobjmetadata.cpp`.

* `std::map<std::string, std::vector<std::string>>` (the type `KeyVals`) is a
  finite map; it is embedded as a function from keys to optional sequences,
  `none` meaning "the key is absent".  Two maps are identical exactly when they
  have the same keys and the same sequence under every key.
* `std::vector<std::string>` is `List String`; strings are only ever compared
  for equality and tested for emptiness.
* A `char*` argument of the remote update call is a C string (`CString`): text
  without a NUL character.  `x.c_str()` hands over the characters of `x` up to
  its first NUL character (`c_str`).
* The container keeps two non-owning references (`conn`, `objEntry`).  They are
  passed explicitly to every operation: the remote side may answer differently
  at every call, so each call receives the behaviour of the remote side at the
  time of that call.
* An operation that returns a status and mutates the container returns the
  pair (status, container afterwards).
* The loop counters are `unsigned int`; the sequences are assumed to be shorter
  than `2 ^ 32` entries, so that a counter never wraps.
-/

namespace Kanki

/-! ## Collaborators (declared outside `rodsobjmetadata.cpp`) -/

/-- The iRODS object type tag `objType_t` of an object entry. -/
inductive ObjType where
  | UNKNOWN_OBJ_T
  | DATA_OBJ_T
  | COLL_OBJ_T
  | UNKNOWN_FILE_T
  | LOCAL_FILE_T
  | LOCAL_DIR_T
  | NO_INPUT_T
  deriving DecidableEq, Repr

/-- The catalog columns named by `refresh`. -/
inductive Column where
  | COL_META_DATA_ATTR_NAME
  | COL_META_DATA_ATTR_VALUE
  | COL_META_DATA_ATTR_UNITS
  | COL_META_COLL_ATTR_NAME
  | COL_META_COLL_ATTR_VALUE
  | COL_META_COLL_ATTR_UNITS
  | COL_DATA_NAME
  | COL_COLL_NAME
  deriving DecidableEq, Repr

/-- The condition operators of `RodsGenQuery`; `refresh` uses `isEqual` only. -/
inductive CondOperator where
  | isEqual
  | isLike
  deriving DecidableEq, Repr

/-- The NUL character, which ends a C string. -/
def NUL : Char := Char.ofNat 0

/-- A C string, as a `char*` hands it over: text without a NUL character. -/
abbrev CString := { s : String // NUL ∉ s.data }

/-- The C string `x.c_str()` hands over for a `std::string` `x`: the characters
of `x` up to its first NUL character (all of `x` when it holds none). -/
def c_str (x : String) : CString :=
  ⟨⟨x.data.takeWhile (fun c => c != NUL)⟩, fun h => by
    have hc := List.mem_takeWhile_imp h
    simp at hc⟩

/-- The C string of the literal `""`. -/
def emptyCString : CString := ⟨"", by decide⟩

/-- The identity record `RodsObjEntry` of the object the metadata belongs to.
`getObjectFullPath` is the string its method of that name returns, and
`DataObjType`, `CollObjType` are the two object-kind markers of the class,
C string constants (all three are defined in the class `RodsObjEntry`, outside
`rodsobjmetadata.cpp`). -/
structure RodsObjEntry where
  objType : ObjType
  objName : String
  collPath : String
  getObjectFullPath : String
  DataObjType : CString
  CollObjType : CString

/-- The argument record `modAVUMetadataInp_t` of the metadata update call: ten
positional slots.  A slot is a `char*` in the source; it carries a C string. -/
structure ModAVUMetadataInp where
  arg0 : CString
  arg1 : CString
  arg2 : CString
  arg3 : CString
  arg4 : CString
  arg5 : CString
  arg6 : CString
  arg7 : CString
  arg8 : CString
  arg9 : CString
  deriving DecidableEq, Repr

/-- The text of the ten positional slots of an argument record, in order. -/
def ModAVUMetadataInp.toList (inp : ModAVUMetadataInp) : List String :=
  [inp.arg0.val, inp.arg1.val, inp.arg2.val, inp.arg3.val, inp.arg4.val, inp.arg5.val,
    inp.arg6.val, inp.arg7.val, inp.arg8.val, inp.arg9.val]

/-- Modelled from the spec: the query builder `RodsGenQuery` (its class is
defined outside `rodsobjmetadata.cpp`): "a builder that accepts (a) a list of result
columns to project, (b) a list of equality conditions (column, operator,
literal value)". -/
structure RodsGenQuery where
  queryAttrs : List Column
  queryConds : List (Column × CondOperator × String)
  deriving DecidableEq, Repr

/-- Modelled from the spec: a fresh builder projects nothing and has no
condition. -/
def RodsGenQuery.new : RodsGenQuery := ⟨[], []⟩

/-- Modelled from the spec: `addQueryAttribute` adds one projected column. -/
def RodsGenQuery.addQueryAttribute (q : RodsGenQuery) (c : Column) : RodsGenQuery :=
  { q with queryAttrs := q.queryAttrs ++ [c] }

/-- Modelled from the spec: `addQueryCondition` adds one condition. -/
def RodsGenQuery.addQueryCondition (q : RodsGenQuery) (c : Column) (op : CondOperator)
    (val : String) : RodsGenQuery :=
  { q with queryConds := q.queryConds ++ [(c, op, val)] }

/-- The remote side as one call sees it: the status `rcModAVUMetadata` answers
to an argument record, the status `RodsGenQuery::execute` answers to a composed
query, and the result column `getResultSet` exposes per projected column
index. -/
structure RodsConnection where
  rcModAVUMetadata : ModAVUMetadataInp → Int
  execute : RodsGenQuery → Int
  getResultSet : RodsGenQuery → Nat → List String

/-! ## The key-indexed store `KeyVals` -/

/-- The map type `RodsObjMetadata::KeyVals`. -/
abbrev KeyVals := String → Option (List String)

/-- The empty map. -/
def KeyVals.empty : KeyVals := fun _ => none

/-- Assignment `m[key] = vals` (insert or overwrite). -/
def KeyVals.assign (m : KeyVals) (key : String) (vals : List String) : KeyVals :=
  fun k => if k = key then some vals else m k

/-- The map after evaluating `m[key]`: `std::map::operator[]` inserts an empty
sequence when the key is absent. -/
def KeyVals.subscript (m : KeyVals) (key : String) : KeyVals :=
  match m key with
  | some _ => m
  | none => m.assign key []

/-- The sequence stored under `key`, the empty sequence when the key is
absent. -/
def KeyVals.seq (m : KeyVals) (key : String) : List String :=
  (m key).getD []

/-- The operation `RodsObjMetadata::addToKeyVals`. -/
def addToKeyVals (keyVals : KeyVals) (key value : String) : KeyVals :=
  -- if there is no value vector for this key, initialize it with an empty one
  let keyVals1 := if keyVals key = none then keyVals.assign key [] else keyVals
  -- the value is pushed to the end of the value vector
  match keyVals1 key with
  | some vals => keyVals1.assign key (vals ++ [value])
  | none => keyVals1

/-- The scan of `removeFromKeyVals` over the value vector.  The iterator is
the position `i`; `values.erase(i)` removes the entry at that position and the
iterator keeps its position; the loop then increments it and goes on while it
differs from `values.end()`.  A position beyond the end differs from
`values.end()` too: the source then dereferences the iterator outside the
vector, which is reported as `none`. -/
def removeFromKeyValsScan (value : String) (values : List String) (i : Nat) :
    Option (List String) :=
  if i = values.length then
    some values
  else if h : i < values.length then
    if value = values[i] then
      removeFromKeyValsScan value (values.eraseIdx i) (i + 1)
    else
      removeFromKeyValsScan value values (i + 1)
  else
    none
termination_by values.length - i
decreasing_by
  · rw [List.length_eraseIdx]
    split <;> omega
  · omega

/-- The operation `RodsObjMetadata::removeFromKeyVals`; `none` when its scan
moves the iterator beyond the end of the vector. -/
def removeFromKeyVals (keyVals : KeyVals) (key value : String) : Option KeyVals :=
  match keyVals key with
  | none => some keyVals
  | some values =>
    match removeFromKeyValsScan value values 0 with
    | some values1 => some (keyVals.assign key values1)
    | none => none

/-! ## The container -/

/-- The two maps owned by a `RodsObjMetadata`. -/
structure RodsObjMetadata where
  attrValues : KeyVals
  attrUnits : KeyVals

/-- The container right after construction: both maps empty. -/
def RodsObjMetadata.new : RodsObjMetadata := ⟨KeyVals.empty, KeyVals.empty⟩

/-- The accessor `getValues`. -/
def RodsObjMetadata.getValues (md : RodsObjMetadata) : KeyVals := md.attrValues

/-- The accessor `getUnits`. -/
def RodsObjMetadata.getUnits (md : RodsObjMetadata) : KeyVals := md.attrUnits

/-- The operation `RodsObjMetadata::addToStore`. -/
def RodsObjMetadata.addToStore (md : RodsObjMetadata) (name value unit : String) :
    RodsObjMetadata :=
  { attrValues := addToKeyVals md.attrValues name value
    attrUnits := addToKeyVals md.attrUnits name unit }

/-- The loop of `refresh` from counter `i` on: one `addToStore` per row index
present in all three columns. -/
def refreshLoop (names values units : List String) (i : Nat) (md : RodsObjMetadata) :
    RodsObjMetadata :=
  if h : i < names.length ∧ i < values.length ∧ i < units.length then
    refreshLoop names values units (i + 1) (md.addToStore names[i] values[i] units[i])
  else md
termination_by names.length - i
decreasing_by omega

/-- The query `refresh` composes before executing it. -/
def refreshQuery (objEntry : RodsObjEntry) : RodsGenQuery :=
  let q0 := RodsGenQuery.new
  let q1 :=
    if objEntry.objType = ObjType.DATA_OBJ_T then
      ((q0.addQueryAttribute Column.COL_META_DATA_ATTR_NAME).addQueryAttribute
        Column.COL_META_DATA_ATTR_VALUE).addQueryAttribute Column.COL_META_DATA_ATTR_UNITS
    else if objEntry.objType = ObjType.COLL_OBJ_T then
      ((q0.addQueryAttribute Column.COL_META_COLL_ATTR_NAME).addQueryAttribute
        Column.COL_META_COLL_ATTR_VALUE).addQueryAttribute Column.COL_META_COLL_ATTR_UNITS
    else q0
  let q2 := q1.addQueryCondition
    (if objEntry.objType = ObjType.DATA_OBJ_T then Column.COL_DATA_NAME else Column.COL_COLL_NAME)
    CondOperator.isEqual objEntry.objName
  if objEntry.objType = ObjType.DATA_OBJ_T then
    q2.addQueryCondition Column.COL_COLL_NAME CondOperator.isEqual objEntry.collPath
  else q2

/-- The operation `RodsObjMetadata::refresh`. -/
def RodsObjMetadata.refresh (conn : RodsConnection) (objEntry : RodsObjEntry)
    (md : RodsObjMetadata) : Int × RodsObjMetadata :=
  let metaQuery := refreshQuery objEntry
  let status := conn.execute metaQuery
  if status < 0 then
    (status, md)
  else
    let cleared : RodsObjMetadata := ⟨KeyVals.empty, KeyVals.empty⟩
    let names := conn.getResultSet metaQuery 0
    let values := conn.getResultSet metaQuery 1
    let units := conn.getResultSet metaQuery 2
    (0, refreshLoop names values units 0 cleared)

/-- The object-kind marker placed in slot 1 of every update call. -/
def objTypeArg (objEntry : RodsObjEntry) : CString :=
  if objEntry.objType = ObjType.DATA_OBJ_T then objEntry.DataObjType else objEntry.CollObjType

/-- The operation tag `RodsObjMetadata::AddOperation`. -/
def AddOperation : CString := ⟨"add", by decide⟩

/-- The operation tag `RodsObjMetadata::ModOperation`. -/
def ModOperation : CString := ⟨"mod", by decide⟩

/-- The operation tag `RodsObjMetadata::RmOperation`. -/
def RmOperation : CString := ⟨"rm", by decide⟩

/-- The argument record `addAttribute` fills in. -/
def addAttributeInp (objEntry : RodsObjEntry) (attrName attrValue attrUnit : String) :
    ModAVUMetadataInp :=
  { arg0 := AddOperation
    arg1 := objTypeArg objEntry
    arg2 := c_str objEntry.getObjectFullPath
    arg3 := c_str attrName
    arg4 := c_str attrValue
    arg5 := c_str attrUnit
    arg6 := emptyCString
    arg7 := emptyCString
    arg8 := emptyCString
    arg9 := emptyCString }

/-- The operation `RodsObjMetadata::addAttribute`. -/
def RodsObjMetadata.addAttribute (conn : RodsConnection) (objEntry : RodsObjEntry)
    (md : RodsObjMetadata) (attrName attrValue attrUnit : String) : Int × RodsObjMetadata :=
  let status := conn.rcModAVUMetadata (addAttributeInp objEntry attrName attrValue attrUnit)
  if status < 0 then
    (status, md)
  else
    (status, md.addToStore attrName attrValue attrUnit)

/-- The match test shared by the scans of `modifyAttribute` and
`removeAttribute`: the value equals, the unit is defined and it equals. -/
def tripletMatches (value unit valueStr unitStr : String) : Bool :=
  decide (value = valueStr) && decide (unit.length ≠ 0) && decide (unit = unitStr)

/-- The argument record `modifyAttribute` fills in. -/
def modifyAttributeInp (objEntry : RodsObjEntry)
    (attrName valueStr newValueStr unitStr newUnitStr : String) : ModAVUMetadataInp :=
  let valueArg := "v:" ++ newValueStr
  let unitArg := if unitStr.length > 0 then "u:" ++ newUnitStr else ""
  if unitStr.length > 0 then
    { arg0 := ModOperation
      arg1 := objTypeArg objEntry
      arg2 := c_str objEntry.getObjectFullPath
      arg3 := c_str attrName
      arg4 := c_str valueStr
      arg5 := c_str unitStr
      arg6 := c_str valueArg
      arg7 := c_str unitArg
      arg8 := emptyCString
      arg9 := emptyCString }
  else
    { arg0 := ModOperation
      arg1 := objTypeArg objEntry
      arg2 := c_str objEntry.getObjectFullPath
      arg3 := c_str attrName
      arg4 := c_str valueStr
      arg5 := c_str valueArg
      arg6 := emptyCString
      arg7 := emptyCString
      arg8 := emptyCString
      arg9 := emptyCString }

/-- The scan of `modifyAttribute` from counter `i` on, over the two sequences of
the attribute: the first matching index is overwritten in both sequences and the
scan stops; when the scan runs off the end, the new pair is pushed to the end
of both. -/
def modifyScan (valueStr newValueStr unitStr newUnitStr : String)
    (values units : List String) (i : Nat) : List String × List String :=
  if h : i < values.length ∧ i < units.length then
    if tripletMatches values[i] units[i] valueStr unitStr then
      (values.set i newValueStr, units.set i newUnitStr)
    else
      modifyScan valueStr newValueStr unitStr newUnitStr values units (i + 1)
  else
    (values ++ [newValueStr], units ++ [newUnitStr])
termination_by values.length - i
decreasing_by omega

/-- The operation `RodsObjMetadata::modifyAttribute`. -/
def RodsObjMetadata.modifyAttribute (conn : RodsConnection) (objEntry : RodsObjEntry)
    (md : RodsObjMetadata) (attrName valueStr newValueStr unitStr newUnitStr : String) :
    Int × RodsObjMetadata :=
  let status := conn.rcModAVUMetadata
    (modifyAttributeInp objEntry attrName valueStr newValueStr unitStr newUnitStr)
  if status < 0 then
    (status, md)
  else
    -- take references to value and unit vectors
    let attrValues1 := md.attrValues.subscript attrName
    let attrUnits1 := md.attrUnits.subscript attrName
    let r := modifyScan valueStr newValueStr unitStr newUnitStr
      (attrValues1.seq attrName) (attrUnits1.seq attrName) 0
    (status, { attrValues := attrValues1.assign attrName r.1
               attrUnits := attrUnits1.assign attrName r.2 })

/-- The argument record `removeAttribute` fills in. -/
def removeAttributeInp (objEntry : RodsObjEntry) (attrName valueStr unitStr : String) :
    ModAVUMetadataInp :=
  { arg0 := RmOperation
    arg1 := objTypeArg objEntry
    arg2 := c_str objEntry.getObjectFullPath
    arg3 := c_str attrName
    arg4 := c_str valueStr
    arg5 := c_str unitStr
    arg6 := emptyCString
    arg7 := emptyCString
    arg8 := emptyCString
    arg9 := emptyCString }

/-- The scan of `removeAttribute` from counter `i` on: at a matching index both
entries are erased, and in either case the counter is then incremented. -/
def removeScan (valueStr unitStr : String) (values units : List String) (i : Nat) :
    List String × List String :=
  if h : i < values.length ∧ i < units.length then
    if tripletMatches values[i] units[i] valueStr unitStr then
      removeScan valueStr unitStr (values.eraseIdx i) (units.eraseIdx i) (i + 1)
    else
      removeScan valueStr unitStr values units (i + 1)
  else
    (values, units)
termination_by values.length - i
decreasing_by
  · rw [List.length_eraseIdx]
    split <;> omega
  · omega

/-- The operation `RodsObjMetadata::removeAttribute`. -/
def RodsObjMetadata.removeAttribute (conn : RodsConnection) (objEntry : RodsObjEntry)
    (md : RodsObjMetadata) (attrName valueStr unitStr : String) : Int × RodsObjMetadata :=
  let status := conn.rcModAVUMetadata (removeAttributeInp objEntry attrName valueStr unitStr)
  if status < 0 then
    (status, md)
  else
    -- take references to value and unit vectors
    let attrValues1 := md.attrValues.subscript attrName
    let attrUnits1 := md.attrUnits.subscript attrName
    let r := removeScan valueStr unitStr (attrValues1.seq attrName) (attrUnits1.seq attrName) 0
    (status, { attrValues := attrValues1.assign attrName r.1
               attrUnits := attrUnits1.assign attrName r.2 })

/-! ## Vocabulary of the properties -/

/-- Index `i` of the two sequences cached under `name` holds the pair
(`value`, `unit`). -/
def HasTriplet (md : RodsObjMetadata) (name value unit : String) (i : Nat) : Prop :=
  (md.attrValues.seq name)[i]? = some value ∧ (md.attrUnits.seq name)[i]? = some unit

/-- The correlation invariant: the value store and the unit store have the same
attribute names, and under every name the two sequences are equally long. -/
def Correlated (md : RodsObjMetadata) : Prop :=
  (∀ k, (md.attrValues k).isSome = (md.attrUnits k).isSome) ∧
  (∀ k, (md.attrValues.seq k).length = (md.attrUnits.seq k).length)

/-- The entries `col[i]` of a result column for the rows `i < m` whose name is
`k`, in row order. -/
def rowsOf (k : String) (names col : List String) (m : Nat) : List String :=
  (List.range m).filterMap (fun i => if names[i]? = some k then col[i]? else none)

/-! ## Sample data used by the concrete instances -/

/-- A remote side that rejects every call with the catalog error -818000. -/
def rejectingConn : RodsConnection :=
  ⟨fun _ => -818000, fun _ => -818000, fun _ _ => []⟩

/-- A remote side that accepts every update call, and answers every query with
the rows (color, red, ""), (color, blue, ""). -/
def acceptingConn : RodsConnection :=
  ⟨fun _ => 0, fun _ => 0,
   fun _ i => if i = 0 then ["color", "color"] else if i = 1 then ["red", "blue"] else ["", ""]⟩

/-- A remote side that accepts every update call and every query with the
non-negative status 1. -/
def statusOneConn : RodsConnection :=
  ⟨fun _ => 1, fun _ => 1, fun _ _ => []⟩

/-- A collection `/zone/home/coll`. -/
def sampleColl : RodsObjEntry :=
  ⟨ObjType.COLL_OBJ_T, "/zone/home/coll", "/zone/home", "/zone/home/coll",
    ⟨"-d", by decide⟩, ⟨"-C", by decide⟩⟩

/-- A data object `/zone/home/file.dat`. -/
def sampleEntry : RodsObjEntry :=
  ⟨ObjType.DATA_OBJ_T, "file.dat", "/zone/home", "/zone/home/file.dat",
    ⟨"-d", by decide⟩, ⟨"-C", by decide⟩⟩

/-- The store with the single attribute `attr`: values a, b with units x, y. -/
def sampleStore : RodsObjMetadata :=
  ⟨fun k => if k = "attr" then some ["a", "b"] else none,
   fun k => if k = "attr" then some ["x", "y"] else none⟩

/-- The container after two accepted `add("k","v","u")` on a fresh one. -/
def duplicateStore : RodsObjMetadata :=
  ((RodsObjMetadata.new.addAttribute acceptingConn sampleEntry "k" "v" "u").2.addAttribute
    acceptingConn sampleEntry "k" "v" "u").2

/-- The store with the single attribute `color`: values red, blue, both with
the empty unit (what a `refresh` answered by `acceptingConn` leaves). -/
def unitlessStore : RodsObjMetadata :=
  ⟨fun k => if k = "color" then some ["red", "blue"] else none,
   fun k => if k = "color" then some ["", ""] else none⟩

/-- The store with the single attribute `k` holding the pair (v, u) three
times. -/
def tripleStore : RodsObjMetadata :=
  ⟨fun k => if k = "k" then some ["v", "v", "v"] else none,
   fun k => if k = "k" then some ["u", "u", "u"] else none⟩

/-! ## Lemmas on the key-indexed store -/

theorem KeyVals.assign_same (m : KeyVals) (key : String) (vals : List String) :
    m.assign key vals key = some vals := by
  simp [KeyVals.assign]

theorem KeyVals.assign_other (m : KeyVals) (key k : String) (vals : List String)
    (h : k ≠ key) : m.assign key vals k = m k := by
  simp [KeyVals.assign, h]

theorem KeyVals.subscript_same (m : KeyVals) (key : String) :
    m.subscript key key = some (m.seq key) := by
  unfold KeyVals.subscript KeyVals.seq
  cases h : m key <;> simp [h, KeyVals.assign]

theorem KeyVals.subscript_other (m : KeyVals) (key k : String) (h : k ≠ key) :
    m.subscript key k = m k := by
  unfold KeyVals.subscript
  cases hk : m key <;> simp [KeyVals.assign, h]

theorem KeyVals.seq_subscript (m : KeyVals) (key : String) :
    (m.subscript key).seq key = m.seq key := by
  simp [KeyVals.seq, KeyVals.subscript_same]

theorem KeyVals.subscript_of_isSome (m : KeyVals) (key : String) (h : (m key).isSome) :
    m.subscript key = m := by
  unfold KeyVals.subscript
  cases hk : m key with
  | none => simp [hk] at h
  | some _ => rfl

theorem KeyVals.assign_seq_of_isSome (m : KeyVals) (key : String) (h : (m key).isSome) :
    m.assign key (m.seq key) = m := by
  funext k
  unfold KeyVals.assign KeyVals.seq
  by_cases hk : k = key
  · subst hk
    cases hm : m k with
    | none => simp [hm] at h
    | some _ => simp
  · simp [hk]

theorem addToKeyVals_same (m : KeyVals) (key value : String) :
    addToKeyVals m key value key = some (m.seq key ++ [value]) := by
  unfold addToKeyVals KeyVals.seq
  cases h : m key <;> simp [h, KeyVals.assign]

theorem addToKeyVals_other (m : KeyVals) (key value k : String) (h : k ≠ key) :
    addToKeyVals m key value k = m k := by
  unfold addToKeyVals
  cases hk : m key <;> simp [hk, KeyVals.assign, h]

theorem length_ne_zero_iff (s : String) : s.length ≠ 0 ↔ s ≠ "" := by
  cases s with
  | mk d => simp [String.length, String.ext_iff]

theorem tripletMatches_iff (value unit valueStr unitStr : String) :
    tripletMatches value unit valueStr unitStr = true ↔
      value = valueStr ∧ unit = unitStr ∧ unitStr ≠ "" := by
  unfold tripletMatches
  simp only [Bool.and_eq_true, decide_eq_true_eq, length_ne_zero_iff]
  constructor
  · rintro ⟨⟨h1, h2⟩, h3⟩
    exact ⟨h1, h3, h3 ▸ h2⟩
  · rintro ⟨h1, h2, h3⟩
    exact ⟨⟨h1, h2 ▸ h3⟩, h2⟩

/-! ## Lemmas on the scans -/

theorem removeScan_length (valueStr unitStr : String) (values units : List String) (i : Nat)
    (h : values.length = units.length) :
    (removeScan valueStr unitStr values units i).1.length =
      (removeScan valueStr unitStr values units i).2.length := by
  induction values, units, i using removeScan.induct valueStr unitStr with
  | case1 values units i hi hm ih =>
    rw [removeScan, dif_pos hi, if_pos hm]
    apply ih
    simp [List.length_eraseIdx, h]
  | case2 values units i hi hm ih =>
    rw [removeScan, dif_pos hi, if_neg hm]
    exact ih h
  | case3 values units i hi =>
    rw [removeScan, dif_neg hi]
    exact h

theorem removeScan_noMatch (valueStr unitStr : String) (values units : List String) (i : Nat)
    (h : ∀ j (h1 : j < values.length) (h2 : j < units.length),
      tripletMatches values[j] units[j] valueStr unitStr = false) :
    removeScan valueStr unitStr values units i = (values, units) := by
  induction values, units, i using removeScan.induct valueStr unitStr with
  | case1 values units i hi hm ih =>
    rw [h i hi.1 hi.2] at hm
    exact absurd hm (by decide)
  | case2 values units i hi hm ih =>
    rw [removeScan, dif_pos hi, if_neg hm]
    exact ih h
  | case3 values units i hi =>
    rw [removeScan, dif_neg hi]

theorem modifyScan_length (valueStr newValueStr unitStr newUnitStr : String)
    (values units : List String) (i : Nat) (h : values.length = units.length) :
    (modifyScan valueStr newValueStr unitStr newUnitStr values units i).1.length =
      (modifyScan valueStr newValueStr unitStr newUnitStr values units i).2.length := by
  induction i using modifyScan.induct valueStr newValueStr unitStr newUnitStr values units with
  | case1 i hi hm =>
    rw [modifyScan, dif_pos hi, if_pos hm]
    simp [h]
  | case2 i hi hm ih =>
    rw [modifyScan, dif_pos hi, if_neg hm]
    exact ih
  | case3 i hi =>
    rw [modifyScan, dif_neg hi]
    simp [h]

theorem modifyScan_noMatch (valueStr newValueStr unitStr newUnitStr : String)
    (values units : List String) (i : Nat)
    (h : ∀ j (h1 : j < values.length) (h2 : j < units.length),
      tripletMatches values[j] units[j] valueStr unitStr = false) :
    modifyScan valueStr newValueStr unitStr newUnitStr values units i =
      (values ++ [newValueStr], units ++ [newUnitStr]) := by
  induction i using modifyScan.induct valueStr newValueStr unitStr newUnitStr values units with
  | case1 i hi hm =>
    rw [h i hi.1 hi.2] at hm
    exact absurd hm (by decide)
  | case2 i hi hm ih =>
    rw [modifyScan, dif_pos hi, if_neg hm]
    exact ih
  | case3 i hi =>
    rw [modifyScan, dif_neg hi]

theorem modifyScan_first (valueStr newValueStr unitStr newUnitStr : String)
    (values units : List String) (i j : Nat) (hij : i ≤ j)
    (h1 : j < values.length) (h2 : j < units.length)
    (hj : tripletMatches values[j] units[j] valueStr unitStr = true)
    (hfirst : ∀ k (_ : i ≤ k) (_ : k < j) (k1 : k < values.length) (k2 : k < units.length),
      tripletMatches values[k] units[k] valueStr unitStr = false) :
    modifyScan valueStr newValueStr unitStr newUnitStr values units i =
      (values.set j newValueStr, units.set j newUnitStr) := by
  induction i using modifyScan.induct valueStr newValueStr unitStr newUnitStr values units with
  | case1 i hi hm =>
    rw [modifyScan, dif_pos hi, if_pos hm]
    have : i = j := by
      by_contra hne
      have hlt : i < j := by omega
      rw [hfirst i (le_refl i) hlt hi.1 hi.2] at hm
      exact absurd hm (by decide)
    subst this
    rfl
  | case2 i hi hm ih =>
    rw [modifyScan, dif_pos hi, if_neg hm]
    have hne : i ≠ j := by
      rintro rfl
      exact hm hj
    exact ih (by omega) (fun k hk hkj k1 k2 => hfirst k (by omega) hkj k1 k2)
  | case3 i hi =>
    exact absurd ⟨by omega, by omega⟩ hi

/-! ## Lemmas on the loop of `refresh` -/

theorem refreshLoop_attrValues (names values units : List String) (k : String) (i : Nat)
    (md : RodsObjMetadata) :
    (refreshLoop names values units i md).attrValues k =
      if (List.range' i (min names.length (min values.length units.length) - i)).filterMap
          (fun r => if names[r]? = some k then values[r]? else none) = [] then
        md.attrValues k
      else
        some (md.attrValues.seq k ++
          (List.range' i (min names.length (min values.length units.length) - i)).filterMap
            (fun r => if names[r]? = some k then values[r]? else none)) := by
  induction i, md using refreshLoop.induct names values units with
  | case1 i md h ih =>
    rw [refreshLoop, dif_pos h, ih]
    have hm : min names.length (min values.length units.length) - i =
        (min names.length (min values.length units.length) - (i + 1)) + 1 := by omega
    rw [hm, List.range'_succ, List.filterMap_cons]
    simp only [List.getElem?_eq_getElem h.1, List.getElem?_eq_getElem h.2.1, Option.some.injEq]
    by_cases hk : names[i] = k
    · subst hk
      simp [RodsObjMetadata.addToStore, addToKeyVals_same, KeyVals.seq]
    · have hk2 : k ≠ names[i] := fun e => hk e.symm
      simp [RodsObjMetadata.addToStore, addToKeyVals_other _ _ _ _ hk2, KeyVals.seq, hk]
  | case2 i md h =>
    rw [refreshLoop, dif_neg h]
    have hm : min names.length (min values.length units.length) - i = 0 := by omega
    simp [hm]

theorem refreshLoop_attrUnits (names values units : List String) (k : String) (i : Nat)
    (md : RodsObjMetadata) :
    (refreshLoop names values units i md).attrUnits k =
      if (List.range' i (min names.length (min values.length units.length) - i)).filterMap
          (fun r => if names[r]? = some k then units[r]? else none) = [] then
        md.attrUnits k
      else
        some (md.attrUnits.seq k ++
          (List.range' i (min names.length (min values.length units.length) - i)).filterMap
            (fun r => if names[r]? = some k then units[r]? else none)) := by
  induction i, md using refreshLoop.induct names values units with
  | case1 i md h ih =>
    rw [refreshLoop, dif_pos h, ih]
    have hm : min names.length (min values.length units.length) - i =
        (min names.length (min values.length units.length) - (i + 1)) + 1 := by omega
    rw [hm, List.range'_succ, List.filterMap_cons]
    simp only [List.getElem?_eq_getElem h.1, List.getElem?_eq_getElem h.2.2, Option.some.injEq]
    by_cases hk : names[i] = k
    · subst hk
      simp [RodsObjMetadata.addToStore, addToKeyVals_same, KeyVals.seq]
    · have hk2 : k ≠ names[i] := fun e => hk e.symm
      simp [RodsObjMetadata.addToStore, addToKeyVals_other _ _ _ _ hk2, KeyVals.seq, hk]
  | case2 i md h =>
    rw [refreshLoop, dif_neg h]
    have hm : min names.length (min values.length units.length) - i = 0 := by omega
    simp [hm]

theorem rowsOf_eq_nil_iff (k : String) (names col : List String) (m : Nat)
    (hm : m ≤ col.length) :
    rowsOf k names col m = [] ↔ ∀ i, i < m → names[i]? ≠ some k := by
  unfold rowsOf
  rw [List.filterMap_eq_nil_iff]
  constructor
  · intro h i hi hn
    have := h i (List.mem_range.mpr hi)
    rw [if_pos hn, List.getElem?_eq_getElem (by omega)] at this
    exact absurd this (by simp)
  · intro h i hi
    rw [if_neg (h i (List.mem_range.mp hi))]

/-! ## Lemmas on the correlation invariant -/

theorem correlated_new : Correlated RodsObjMetadata.new := by
  constructor <;> intro k <;> rfl

theorem correlated_sampleStore : Correlated sampleStore := by
  constructor <;> intro k <;> by_cases hk : k = "attr" <;> simp [sampleStore, KeyVals.seq, hk]

theorem correlated_addToStore (md : RodsObjMetadata) (name value unit : String)
    (h : Correlated md) : Correlated (md.addToStore name value unit) := by
  constructor
  · intro k
    by_cases hk : k = name
    · subst hk
      simp [RodsObjMetadata.addToStore, addToKeyVals_same]
    · simp [RodsObjMetadata.addToStore, addToKeyVals_other _ _ _ _ hk, h.1 k]
  · intro k
    by_cases hk : k = name
    · subst hk
      simp [RodsObjMetadata.addToStore, KeyVals.seq, addToKeyVals_same]
      exact h.2 k
    · simp only [RodsObjMetadata.addToStore, KeyVals.seq, addToKeyVals_other _ _ _ _ hk]
      exact h.2 k

theorem correlated_refreshLoop (names values units : List String) (i : Nat)
    (md : RodsObjMetadata) (h : Correlated md) :
    Correlated (refreshLoop names values units i md) := by
  induction i, md using refreshLoop.induct names values units with
  | case1 i md hi ih =>
    rw [refreshLoop, dif_pos hi]
    exact ih (correlated_addToStore md _ _ _ h)
  | case2 i md hi =>
    rw [refreshLoop, dif_neg hi]
    exact h

theorem correlated_subscript_assign (md : RodsObjMetadata) (name : String)
    (vals units : List String) (h : Correlated md) (hlen : vals.length = units.length) :
    Correlated
      { attrValues := (md.attrValues.subscript name).assign name vals
        attrUnits := (md.attrUnits.subscript name).assign name units } := by
  constructor
  · intro k
    by_cases hk : k = name
    · subst hk
      simp [KeyVals.assign_same]
    · simp [KeyVals.assign_other _ _ _ _ hk, KeyVals.subscript_other _ _ _ hk, h.1 k]
  · intro k
    by_cases hk : k = name
    · subst hk
      simp [KeyVals.seq, KeyVals.assign_same, hlen]
    · simp only [KeyVals.seq, KeyVals.assign_other _ _ _ _ hk, KeyVals.subscript_other _ _ _ hk]
      exact h.2 k

/-! ## The success paths of `modifyAttribute` and `removeAttribute` -/

theorem modifyAttribute_success (conn : RodsConnection) (objEntry : RodsObjEntry)
    (md : RodsObjMetadata) (attrName valueStr newValueStr unitStr newUnitStr : String)
    (hs : 0 ≤ conn.rcModAVUMetadata
      (modifyAttributeInp objEntry attrName valueStr newValueStr unitStr newUnitStr)) :
    md.modifyAttribute conn objEntry attrName valueStr newValueStr unitStr newUnitStr =
      (conn.rcModAVUMetadata
        (modifyAttributeInp objEntry attrName valueStr newValueStr unitStr newUnitStr),
       { attrValues := (md.attrValues.subscript attrName).assign attrName
           (modifyScan valueStr newValueStr unitStr newUnitStr
             (md.attrValues.seq attrName) (md.attrUnits.seq attrName) 0).1
         attrUnits := (md.attrUnits.subscript attrName).assign attrName
           (modifyScan valueStr newValueStr unitStr newUnitStr
             (md.attrValues.seq attrName) (md.attrUnits.seq attrName) 0).2 }) := by
  simp only [RodsObjMetadata.modifyAttribute, if_neg (not_lt.mpr hs), KeyVals.seq_subscript]

theorem removeAttribute_success (conn : RodsConnection) (objEntry : RodsObjEntry)
    (md : RodsObjMetadata) (attrName valueStr unitStr : String)
    (hs : 0 ≤ conn.rcModAVUMetadata (removeAttributeInp objEntry attrName valueStr unitStr)) :
    md.removeAttribute conn objEntry attrName valueStr unitStr =
      (conn.rcModAVUMetadata (removeAttributeInp objEntry attrName valueStr unitStr),
       { attrValues := (md.attrValues.subscript attrName).assign attrName
           (removeScan valueStr unitStr
             (md.attrValues.seq attrName) (md.attrUnits.seq attrName) 0).1
         attrUnits := (md.attrUnits.subscript attrName).assign attrName
           (removeScan valueStr unitStr
             (md.attrValues.seq attrName) (md.attrUnits.seq attrName) 0).2 }) := by
  simp only [RodsObjMetadata.removeAttribute, if_neg (not_lt.mpr hs), KeyVals.seq_subscript]

theorem tripletMatches_false_of_not_hasTriplet (md : RodsObjMetadata)
    (name valueStr unitStr : String) (i : Nat)
    (h1 : i < (md.attrValues.seq name).length) (h2 : i < (md.attrUnits.seq name).length)
    (h : ¬ (HasTriplet md name valueStr unitStr i ∧ unitStr ≠ "")) :
    tripletMatches (md.attrValues.seq name)[i] (md.attrUnits.seq name)[i] valueStr unitStr
      = false := by
  rw [Bool.eq_false_iff]
  intro hm
  rw [tripletMatches_iff] at hm
  apply h
  refine ⟨⟨?_, ?_⟩, hm.2.2⟩
  · rw [List.getElem?_eq_getElem h1, hm.1]
  · rw [List.getElem?_eq_getElem h2, hm.2.1]

theorem tripletMatches_of_hasTriplet (md : RodsObjMetadata)
    (name valueStr unitStr : String) (i : Nat)
    (h1 : i < (md.attrValues.seq name).length) (h2 : i < (md.attrUnits.seq name).length)
    (h : HasTriplet md name valueStr unitStr i) (hne : unitStr ≠ "") :
    tripletMatches (md.attrValues.seq name)[i] (md.attrUnits.seq name)[i] valueStr unitStr
      = true := by
  rw [tripletMatches_iff]
  obtain ⟨hv, hu⟩ := h
  rw [List.getElem?_eq_getElem h1] at hv
  rw [List.getElem?_eq_getElem h2] at hu
  exact ⟨Option.some.inj hv, Option.some.inj hu, hne⟩

theorem HasTriplet.lt_length {md : RodsObjMetadata} {name valueStr unitStr : String} {i : Nat}
    (h : HasTriplet md name valueStr unitStr i) :
    i < (md.attrValues.seq name).length ∧ i < (md.attrUnits.seq name).length := by
  obtain ⟨hv, hu⟩ := h
  rw [List.getElem?_eq_some_iff] at hv hu
  exact ⟨hv.1, hu.1⟩

theorem refresh_success (conn : RodsConnection) (objEntry : RodsObjEntry)
    (md : RodsObjMetadata) (hs : 0 ≤ conn.execute (refreshQuery objEntry)) :
    md.refresh conn objEntry =
      (0, refreshLoop (conn.getResultSet (refreshQuery objEntry) 0)
        (conn.getResultSet (refreshQuery objEntry) 1)
        (conn.getResultSet (refreshQuery objEntry) 2) 0 RodsObjMetadata.new) := by
  simp only [RodsObjMetadata.refresh, if_neg (not_lt.mpr hs), RodsObjMetadata.new]

theorem refreshLoop_new_attrValues (names values units : List String) (k : String) :
    (refreshLoop names values units 0 RodsObjMetadata.new).attrValues k =
      if rowsOf k names values (min names.length (min values.length units.length)) = [] then none
      else some (rowsOf k names values (min names.length (min values.length units.length))) := by
  rw [refreshLoop_attrValues]
  simp [rowsOf, List.range_eq_range', RodsObjMetadata.new, KeyVals.empty, KeyVals.seq]

theorem refreshLoop_new_attrUnits (names values units : List String) (k : String) :
    (refreshLoop names values units 0 RodsObjMetadata.new).attrUnits k =
      if rowsOf k names units (min names.length (min values.length units.length)) = [] then none
      else some (rowsOf k names units (min names.length (min values.length units.length))) := by
  rw [refreshLoop_attrUnits]
  simp [rowsOf, List.range_eq_range', RodsObjMetadata.new, KeyVals.empty, KeyVals.seq]

/-! ## Further lemmas on the scan of `removeAttribute` -/

theorem tripletMatches_self (v u : String) (hu : u ≠ "") : tripletMatches v u v u = true := by
  rw [tripletMatches_iff]
  exact ⟨rfl, rfl, hu⟩

theorem tripletMatches_unitless (value unit valueStr : String) :
    tripletMatches value unit valueStr "" = false := by
  rw [Bool.eq_false_iff]
  intro h
  rw [tripletMatches_iff] at h
  exact h.2.2 rfl

theorem removeScan_replicate (v u : String) (hu : u ≠ "") (a i : Nat) :
    removeScan v u (List.replicate a v) (List.replicate a u) i =
      (List.replicate (a - (a - i + 1) / 2) v, List.replicate (a - (a - i + 1) / 2) u) := by
  induction a generalizing i with
  | zero =>
    rw [removeScan, dif_neg (by simp)]
    simp
  | succ a ih =>
    by_cases hi : i < a + 1
    · have hcond : i < (List.replicate (a + 1) v).length ∧
          i < (List.replicate (a + 1) u).length := by
        simp [hi]
      rw [removeScan, dif_pos hcond]
      have hm : tripletMatches (List.replicate (a + 1) v)[i] (List.replicate (a + 1) u)[i] v u
          = true := by
        simp only [List.getElem_replicate]
        exact tripletMatches_self v u hu
      rw [if_pos hm, List.eraseIdx_replicate, List.eraseIdx_replicate, if_pos hi, if_pos hi]
      simp only [Nat.add_sub_cancel]
      rw [ih (i + 1)]
      have e : a - (a - (i + 1) + 1) / 2 = a + 1 - (a + 1 - i + 1) / 2 := by omega
      rw [e]
    · have hcond : ¬ (i < (List.replicate (a + 1) v).length ∧
          i < (List.replicate (a + 1) u).length) := by
        simp [hi]
      rw [removeScan, dif_neg hcond]
      have e : a + 1 - (a + 1 - i + 1) / 2 = a + 1 := by omega
      rw [e]

theorem zip_eraseIdx (l1 l2 : List String) (i : Nat) :
    List.zip (l1.eraseIdx i) (l2.eraseIdx i) = (List.zip l1 l2).eraseIdx i := by
  induction l1 generalizing l2 i with
  | nil => simp
  | cons a t ih =>
    cases l2 with
    | nil => simp
    | cons b t2 =>
      cases i with
      | zero => simp
      | succ i => simp [ih]

theorem count_eraseIdx_of_ne (q : String × String) (l : List (String × String)) (i : Nat)
    (h : i < l.length) (hq : l[i] ≠ q) : (l.eraseIdx i).count q = l.count q := by
  induction l generalizing i with
  | nil => simp
  | cons a t ih =>
    cases i with
    | zero =>
      have ha : a ≠ q := by simpa using hq
      simp [List.count_cons, ha]
    | succ i =>
      have hi : i < t.length := by simpa using h
      have hq2 : t[i] ≠ q := by simpa using hq
      simp [List.count_cons, ih i hi hq2]

theorem removeScan_zip_sublist (valueStr unitStr : String) (values units : List String)
    (i : Nat) :
    (List.zip (removeScan valueStr unitStr values units i).1
      (removeScan valueStr unitStr values units i).2).Sublist (List.zip values units) := by
  induction values, units, i using removeScan.induct valueStr unitStr with
  | case1 values units i hi hm ih =>
    rw [removeScan, dif_pos hi, if_pos hm]
    rw [zip_eraseIdx] at ih
    exact ih.trans (List.eraseIdx_sublist _ _)
  | case2 values units i hi hm ih =>
    rw [removeScan, dif_pos hi, if_neg hm]
    exact ih
  | case3 values units i hi =>
    rw [removeScan, dif_neg hi]

theorem removeScan_zip_count (valueStr unitStr : String) (values units : List String)
    (i : Nat) (q : String × String) (hq : q ≠ (valueStr, unitStr)) :
    (List.zip (removeScan valueStr unitStr values units i).1
      (removeScan valueStr unitStr values units i).2).count q =
      (List.zip values units).count q := by
  induction values, units, i using removeScan.induct valueStr unitStr with
  | case1 values units i hi hm ih =>
    rw [removeScan, dif_pos hi, if_pos hm, ih, zip_eraseIdx]
    rw [tripletMatches_iff] at hm
    apply count_eraseIdx_of_ne q _ i (by simp [hi.1, hi.2])
    rw [List.getElem_zip, hm.1, hm.2.1]
    exact fun e => hq e.symm
  | case2 values units i hi hm ih =>
    rw [removeScan, dif_pos hi, if_neg hm]
    exact ih
  | case3 values units i hi =>
    rw [removeScan, dif_neg hi]

theorem removeScan_length_le (valueStr unitStr : String) (values units : List String)
    (i : Nat) :
    (removeScan valueStr unitStr values units i).1.length ≤ values.length ∧
    (removeScan valueStr unitStr values units i).2.length ≤ units.length := by
  induction values, units, i using removeScan.induct valueStr unitStr with
  | case1 values units i hi hm ih =>
    rw [removeScan, dif_pos hi, if_pos hm]
    have h1 := (List.eraseIdx_sublist values i).length_le
    have h2 := (List.eraseIdx_sublist units i).length_le
    exact ⟨le_trans ih.1 h1, le_trans ih.2 h2⟩
  | case2 values units i hi hm ih =>
    rw [removeScan, dif_pos hi, if_neg hm]
    exact ih
  | case3 values units i hi =>
    rw [removeScan, dif_neg hi]
    exact ⟨le_refl _, le_refl _⟩

theorem removeScan_length_lt (valueStr unitStr : String) (values units : List String)
    (i : Nat)
    (h : ∃ j, i ≤ j ∧ ∃ (h1 : j < values.length) (h2 : j < units.length),
      tripletMatches values[j] units[j] valueStr unitStr = true) :
    (removeScan valueStr unitStr values units i).1.length < values.length ∧
    (removeScan valueStr unitStr values units i).2.length < units.length := by
  induction values, units, i using removeScan.induct valueStr unitStr with
  | case1 values units i hi hm ih =>
    rw [removeScan, dif_pos hi, if_pos hm]
    have hle := removeScan_length_le valueStr unitStr (values.eraseIdx i) (units.eraseIdx i)
      (i + 1)
    have e1 : (values.eraseIdx i).length = values.length - 1 := by
      rw [List.length_eraseIdx, if_pos hi.1]
    have e2 : (units.eraseIdx i).length = units.length - 1 := by
      rw [List.length_eraseIdx, if_pos hi.2]
    have := hi.1
    have := hi.2
    exact ⟨by omega, by omega⟩
  | case2 values units i hi hm ih =>
    rw [removeScan, dif_pos hi, if_neg hm]
    obtain ⟨j, hij, h1, h2, hj⟩ := h
    have hne : i ≠ j := by
      rintro rfl
      exact hm hj
    exact ih ⟨j, by omega, h1, h2, hj⟩
  | case3 values units i hi =>
    obtain ⟨j, hij, h1, h2, _⟩ := h
    exact absurd ⟨by omega, by omega⟩ hi

/-! ## Lemmas on C strings -/

theorem c_str_val_of_no_nul (x : String) (h : NUL ∉ x.data) : (c_str x).val = x := by
  have ht : x.data.takeWhile (fun c => c != NUL) = x.data := by
    rw [List.takeWhile_eq_self_iff]
    intro c hc
    have hne : c ≠ NUL := fun e => h (e ▸ hc)
    simpa using hne
  show String.mk (x.data.takeWhile (fun c => c != NUL)) = x
  rw [ht]

theorem no_nul_append (x y : String) (hx : NUL ∉ x.data) (hy : NUL ∉ y.data) :
    NUL ∉ (x ++ y).data := by
  rw [String.data_append, List.mem_append]
  exact fun h => h.elim hx hy

/-! ## Properties of the operations -/

/-- C1 (failure short-circuits mutation): for each of `addAttribute`,
`modifyAttribute` and `removeAttribute`, when the remote update call answers a
negative status, the operation returns exactly that status, and the container
afterwards (both maps, key sets included) is the container before the call. -/
theorem failure_short_circuits_mutation (conn : RodsConnection) (objEntry : RodsObjEntry)
    (md : RodsObjMetadata) (attrName valueStr newValueStr unitStr newUnitStr : String) :
    (conn.rcModAVUMetadata (addAttributeInp objEntry attrName valueStr unitStr) < 0 →
      md.addAttribute conn objEntry attrName valueStr unitStr =
        (conn.rcModAVUMetadata (addAttributeInp objEntry attrName valueStr unitStr), md)) ∧
    (conn.rcModAVUMetadata
        (modifyAttributeInp objEntry attrName valueStr newValueStr unitStr newUnitStr) < 0 →
      md.modifyAttribute conn objEntry attrName valueStr newValueStr unitStr newUnitStr =
        (conn.rcModAVUMetadata
          (modifyAttributeInp objEntry attrName valueStr newValueStr unitStr newUnitStr), md)) ∧
    (conn.rcModAVUMetadata (removeAttributeInp objEntry attrName valueStr unitStr) < 0 →
      md.removeAttribute conn objEntry attrName valueStr unitStr =
        (conn.rcModAVUMetadata (removeAttributeInp objEntry attrName valueStr unitStr), md)) := by
  refine ⟨fun h => ?_, fun h => ?_, fun h => ?_⟩
  · simp only [RodsObjMetadata.addAttribute, if_pos h]
  · simp only [RodsObjMetadata.modifyAttribute, if_pos h]
  · simp only [RodsObjMetadata.removeAttribute, if_pos h]

/-- C1, concrete instance: the rejecting remote side answers -818000 to the three
update calls on the sample store, and each call returns -818000 and the sample
store itself. -/
theorem failure_short_circuits_mutation_witness :
    sampleStore.addAttribute rejectingConn sampleEntry "attr" "b" "y" =
      (-818000, sampleStore) ∧
    sampleStore.modifyAttribute rejectingConn sampleEntry "attr" "b" "c" "y" "z" =
      (-818000, sampleStore) ∧
    sampleStore.removeAttribute rejectingConn sampleEntry "attr" "b" "y" =
      (-818000, sampleStore) :=
  ⟨(failure_short_circuits_mutation rejectingConn sampleEntry sampleStore
      "attr" "b" "c" "y" "z").1 (by decide),
   (failure_short_circuits_mutation rejectingConn sampleEntry sampleStore
      "attr" "b" "c" "y" "z").2.1 (by decide),
   (failure_short_circuits_mutation rejectingConn sampleEntry sampleStore
      "attr" "b" "c" "y" "z").2.2 (by decide)⟩

/-- C2 (correlation invariant): the predicate "both stores have the same
attribute names and, under every name, equally long sequences" holds for the
freshly constructed container and is preserved by `refresh`, `addAttribute`,
`modifyAttribute` and `removeAttribute`, whatever the arguments and whatever the
remote side answers (failure or success, any result columns). -/
theorem correlation_invariant :
    Correlated RodsObjMetadata.new ∧
    (∀ (conn : RodsConnection) (objEntry : RodsObjEntry) (md : RodsObjMetadata),
      Correlated md → Correlated (md.refresh conn objEntry).2) ∧
    (∀ (conn : RodsConnection) (objEntry : RodsObjEntry) (md : RodsObjMetadata)
        (attrName attrValue attrUnit : String),
      Correlated md → Correlated (md.addAttribute conn objEntry attrName attrValue attrUnit).2) ∧
    (∀ (conn : RodsConnection) (objEntry : RodsObjEntry) (md : RodsObjMetadata)
        (attrName valueStr newValueStr unitStr newUnitStr : String),
      Correlated md →
        Correlated
          (md.modifyAttribute conn objEntry attrName valueStr newValueStr unitStr newUnitStr).2) ∧
    (∀ (conn : RodsConnection) (objEntry : RodsObjEntry) (md : RodsObjMetadata)
        (attrName valueStr unitStr : String),
      Correlated md → Correlated (md.removeAttribute conn objEntry attrName valueStr unitStr).2) := by
  refine ⟨correlated_new, ?_, ?_, ?_, ?_⟩
  · intro conn objEntry md h
    unfold RodsObjMetadata.refresh
    by_cases hs : conn.execute (refreshQuery objEntry) < 0
    · simp only [if_pos hs]
      exact h
    · simp only [if_neg hs]
      exact correlated_refreshLoop _ _ _ 0 _ correlated_new
  · intro conn objEntry md attrName attrValue attrUnit h
    unfold RodsObjMetadata.addAttribute
    by_cases hs : conn.rcModAVUMetadata (addAttributeInp objEntry attrName attrValue attrUnit) < 0
    · simp only [if_pos hs]
      exact h
    · simp only [if_neg hs]
      exact correlated_addToStore md _ _ _ h
  · intro conn objEntry md attrName valueStr newValueStr unitStr newUnitStr h
    unfold RodsObjMetadata.modifyAttribute
    by_cases hs : conn.rcModAVUMetadata
        (modifyAttributeInp objEntry attrName valueStr newValueStr unitStr newUnitStr) < 0
    · simp only [if_pos hs]
      exact h
    · simp only [if_neg hs]
      apply correlated_subscript_assign md attrName _ _ h
      apply modifyScan_length
      rw [KeyVals.seq_subscript, KeyVals.seq_subscript]
      exact h.2 attrName
  · intro conn objEntry md attrName valueStr unitStr h
    unfold RodsObjMetadata.removeAttribute
    by_cases hs : conn.rcModAVUMetadata (removeAttributeInp objEntry attrName valueStr unitStr) < 0
    · simp only [if_pos hs]
      exact h
    · simp only [if_neg hs]
      apply correlated_subscript_assign md attrName _ _ h
      apply removeScan_length
      rw [KeyVals.seq_subscript, KeyVals.seq_subscript]
      exact h.2 attrName

/-- C2, concrete instance: starting from the correlated sample store, the four
operations (here all accepted by the remote side) end in a correlated
container. -/
theorem correlation_invariant_witness :
    Correlated sampleStore ∧
    Correlated (sampleStore.refresh acceptingConn sampleEntry).2 ∧
    Correlated (sampleStore.addAttribute acceptingConn sampleEntry "attr" "b" "y").2 ∧
    Correlated (sampleStore.modifyAttribute acceptingConn sampleEntry "attr" "b" "c" "y" "z").2 ∧
    Correlated (sampleStore.removeAttribute acceptingConn sampleEntry "attr" "b" "y").2 :=
  ⟨correlated_sampleStore,
   correlation_invariant.2.1 acceptingConn sampleEntry sampleStore correlated_sampleStore,
   correlation_invariant.2.2.1 acceptingConn sampleEntry sampleStore "attr" "b" "y"
     correlated_sampleStore,
   correlation_invariant.2.2.2.1 acceptingConn sampleEntry sampleStore "attr" "b" "c" "y" "z"
     correlated_sampleStore,
   correlation_invariant.2.2.2.2 acceptingConn sampleEntry sampleStore "attr" "b" "y"
     correlated_sampleStore⟩

/-- C3 (remove erases every matching triplet), evaluated at the input where the
code departs from it: the container reached by two accepted `add("k","v","u")`
is correlated and holds the pair (v, u) twice under `k`; an accepted
`removeAttribute("k","v","u")` erases index 0, increments its counter and so
never tests the second copy, which is left at index 0. -/
theorem removeAttribute_leaves_adjacent_duplicate :
    Correlated duplicateStore ∧
    duplicateStore.attrValues "k" = some ["v", "v"] ∧
    duplicateStore.attrUnits "k" = some ["u", "u"] ∧
    0 ≤ acceptingConn.rcModAVUMetadata (removeAttributeInp sampleEntry "k" "v" "u") ∧
    (duplicateStore.removeAttribute acceptingConn sampleEntry "k" "v" "u").2.attrValues "k" =
      some ["v"] ∧
    (duplicateStore.removeAttribute acceptingConn sampleEntry "k" "v" "u").2.attrUnits "k" =
      some ["u"] ∧
    HasTriplet (duplicateStore.removeAttribute acceptingConn sampleEntry "k" "v" "u").2
      "k" "v" "u" 0 := by
  have hv : duplicateStore.attrValues "k" = some ["v", "v"] := by
    simp [duplicateStore, RodsObjMetadata.addAttribute, acceptingConn,
      RodsObjMetadata.addToStore, addToKeyVals_same, KeyVals.seq, RodsObjMetadata.new,
      KeyVals.empty]
  have hu : duplicateStore.attrUnits "k" = some ["u", "u"] := by
    simp [duplicateStore, RodsObjMetadata.addAttribute, acceptingConn,
      RodsObjMetadata.addToStore, addToKeyVals_same, KeyVals.seq, RodsObjMetadata.new,
      KeyVals.empty]
  have hc : Correlated duplicateStore := by
    unfold duplicateStore RodsObjMetadata.addAttribute
    simp only [acceptingConn, lt_self_iff_false, if_false]
    exact correlated_addToStore _ _ _ _ (correlated_addToStore _ _ _ _ correlated_new)
  have hscan : removeScan "v" "u" ["v", "v"] ["u", "u"] 0 = (["v"], ["u"]) := by
    simp [removeScan, tripletMatches, String.length]
  have hs : 0 ≤ acceptingConn.rcModAVUMetadata (removeAttributeInp sampleEntry "k" "v" "u") := by
    decide
  rw [removeAttribute_success acceptingConn sampleEntry duplicateStore "k" "v" "u" hs]
  simp only [KeyVals.assign_same, KeyVals.seq, hv, hu, Option.getD_some, hscan, HasTriplet]
  exact ⟨hc, trivial, trivial, hs, trivial, trivial, rfl, rfl⟩

/-- C4 (modify overwrite): when the remote call succeeds and `j` is the first
index of the sequences of `name` holding the pair (`oldValue`, `oldUnit`), with
`oldUnit` non-empty, `modifyAttribute` replaces the value and the unit at index
`j` by (`newValue`, `newUnit`), leaves every other index of those sequences and
every other name unchanged, keeps the lengths, and returns the remote status.
(The equal-length invariant is not needed for this.) -/
theorem modify_overwrite (conn : RodsConnection) (objEntry : RodsObjEntry)
    (md : RodsObjMetadata) (name oldValue newValue oldUnit newUnit : String) (j : Nat)
    (hs : 0 ≤ conn.rcModAVUMetadata
      (modifyAttributeInp objEntry name oldValue newValue oldUnit newUnit))
    (hne : oldUnit ≠ "")
    (hj : HasTriplet md name oldValue oldUnit j)
    (hfirst : ∀ i, i < j → ¬ HasTriplet md name oldValue oldUnit i) :
    (md.modifyAttribute conn objEntry name oldValue newValue oldUnit newUnit).2.attrValues name =
      some ((md.attrValues.seq name).set j newValue) ∧
    (md.modifyAttribute conn objEntry name oldValue newValue oldUnit newUnit).2.attrUnits name =
      some ((md.attrUnits.seq name).set j newUnit) ∧
    HasTriplet (md.modifyAttribute conn objEntry name oldValue newValue oldUnit newUnit).2
      name newValue newUnit j ∧
    (∀ i, i ≠ j →
      ((md.modifyAttribute conn objEntry name oldValue newValue oldUnit newUnit).2.attrValues.seq
        name)[i]? = (md.attrValues.seq name)[i]? ∧
      ((md.modifyAttribute conn objEntry name oldValue newValue oldUnit newUnit).2.attrUnits.seq
        name)[i]? = (md.attrUnits.seq name)[i]?) ∧
    ((md.modifyAttribute conn objEntry name oldValue newValue oldUnit newUnit).2.attrValues.seq
      name).length = (md.attrValues.seq name).length ∧
    ((md.modifyAttribute conn objEntry name oldValue newValue oldUnit newUnit).2.attrUnits.seq
      name).length = (md.attrUnits.seq name).length ∧
    (∀ k, k ≠ name →
      (md.modifyAttribute conn objEntry name oldValue newValue oldUnit newUnit).2.attrValues k =
        md.attrValues k ∧
      (md.modifyAttribute conn objEntry name oldValue newValue oldUnit newUnit).2.attrUnits k =
        md.attrUnits k) ∧
    (md.modifyAttribute conn objEntry name oldValue newValue oldUnit newUnit).1 =
      conn.rcModAVUMetadata
        (modifyAttributeInp objEntry name oldValue newValue oldUnit newUnit) := by
  have hlt := hj.lt_length
  have hscan : modifyScan oldValue newValue oldUnit newUnit
      (md.attrValues.seq name) (md.attrUnits.seq name) 0 =
      ((md.attrValues.seq name).set j newValue, (md.attrUnits.seq name).set j newUnit) := by
    apply modifyScan_first _ _ _ _ _ _ 0 j (Nat.zero_le j) hlt.1 hlt.2
    · exact tripletMatches_of_hasTriplet md name oldValue oldUnit j hlt.1 hlt.2 hj hne
    · intro k _ hkj k1 k2
      exact tripletMatches_false_of_not_hasTriplet md name oldValue oldUnit k k1 k2
        (fun h => hfirst k hkj h.1)
  rw [modifyAttribute_success conn objEntry md name oldValue newValue oldUnit newUnit hs, hscan]
  simp only [KeyVals.assign_same, KeyVals.seq, Option.getD_some, HasTriplet]
  refine ⟨trivial, trivial, ⟨?_, ?_⟩, ?_, ?_, ?_, ?_, trivial⟩
  · exact List.getElem?_set_self hlt.1
  · exact List.getElem?_set_self hlt.2
  · intro i hi
    exact ⟨List.getElem?_set_ne (fun e => hi e.symm), List.getElem?_set_ne (fun e => hi e.symm)⟩
  · exact List.length_set _ _ _
  · exact List.length_set _ _ _
  · intro k hk
    exact ⟨by rw [KeyVals.assign_other _ _ _ _ hk, KeyVals.subscript_other _ _ _ hk],
      by rw [KeyVals.assign_other _ _ _ _ hk, KeyVals.subscript_other _ _ _ hk]⟩

/-- C4, concrete instance (the example of the specification): with the values
a, b and the units x, y under `attr`, an accepted
`modify("attr","b","c","y","z")` gives the values a, c and the units x, z. -/
theorem modify_overwrite_witness :
    Correlated sampleStore ∧
    HasTriplet sampleStore "attr" "b" "y" 1 ∧
    (sampleStore.modifyAttribute acceptingConn sampleEntry "attr" "b" "c" "y" "z").2.attrValues
      "attr" = some ["a", "c"] ∧
    (sampleStore.modifyAttribute acceptingConn sampleEntry "attr" "b" "c" "y" "z").2.attrUnits
      "attr" = some ["x", "z"] :=
  have h := modify_overwrite acceptingConn sampleEntry sampleStore "attr" "b" "c" "y" "z" 1
    (by decide) (by decide) ⟨rfl, rfl⟩
    (fun i hi hi2 => by
      have h0 : i = 0 := by omega
      subst h0
      exact absurd hi2.1 (by decide))
  ⟨correlated_sampleStore, ⟨rfl, rfl⟩, h.1, h.2.1⟩

/-- C5 (modify fallback): `modifyAttribute` returns exactly the remote status on
every path (failure, overwrite, fallback); and when the remote call succeeds and
no index of the sequences of `name` holds `oldValue` together with a non-empty
unit equal to `oldUnit`, it appends `newValue` to the value sequence of `name`
and `newUnit` to its unit sequence (existing entries unchanged, length + 1) and
leaves every other name unchanged. -/
theorem modify_fallback (conn : RodsConnection) (objEntry : RodsObjEntry)
    (md : RodsObjMetadata) (name oldValue newValue oldUnit newUnit : String) :
    (md.modifyAttribute conn objEntry name oldValue newValue oldUnit newUnit).1 =
      conn.rcModAVUMetadata
        (modifyAttributeInp objEntry name oldValue newValue oldUnit newUnit) ∧
    (0 ≤ conn.rcModAVUMetadata
        (modifyAttributeInp objEntry name oldValue newValue oldUnit newUnit) →
      (∀ i, ¬ (HasTriplet md name oldValue oldUnit i ∧ oldUnit ≠ "")) →
      (md.modifyAttribute conn objEntry name oldValue newValue oldUnit newUnit).2.attrValues name =
        some (md.attrValues.seq name ++ [newValue]) ∧
      (md.modifyAttribute conn objEntry name oldValue newValue oldUnit newUnit).2.attrUnits name =
        some (md.attrUnits.seq name ++ [newUnit]) ∧
      ((md.modifyAttribute conn objEntry name oldValue newValue oldUnit newUnit).2.attrValues.seq
        name).length = (md.attrValues.seq name).length + 1 ∧
      ((md.modifyAttribute conn objEntry name oldValue newValue oldUnit newUnit).2.attrUnits.seq
        name).length = (md.attrUnits.seq name).length + 1 ∧
      (∀ k, k ≠ name →
        (md.modifyAttribute conn objEntry name oldValue newValue oldUnit newUnit).2.attrValues k =
          md.attrValues k ∧
        (md.modifyAttribute conn objEntry name oldValue newValue oldUnit newUnit).2.attrUnits k =
          md.attrUnits k)) := by
  constructor
  · by_cases hs : conn.rcModAVUMetadata
        (modifyAttributeInp objEntry name oldValue newValue oldUnit newUnit) < 0
    · simp only [RodsObjMetadata.modifyAttribute, if_pos hs]
    · rw [modifyAttribute_success conn objEntry md name oldValue newValue oldUnit newUnit
        (not_lt.mp hs)]
  · intro hs hno
    have hscan : modifyScan oldValue newValue oldUnit newUnit
        (md.attrValues.seq name) (md.attrUnits.seq name) 0 =
        (md.attrValues.seq name ++ [newValue], md.attrUnits.seq name ++ [newUnit]) :=
      modifyScan_noMatch _ _ _ _ _ _ 0 (fun j h1 h2 =>
        tripletMatches_false_of_not_hasTriplet md name oldValue oldUnit j h1 h2 (hno j))
    rw [modifyAttribute_success conn objEntry md name oldValue newValue oldUnit newUnit hs, hscan]
    simp only [KeyVals.assign_same, KeyVals.seq, Option.getD_some]
    refine ⟨trivial, trivial, ?_, ?_, ?_⟩
    · simp
    · simp
    · intro k hk
      exact ⟨by rw [KeyVals.assign_other _ _ _ _ hk, KeyVals.subscript_other _ _ _ hk],
        by rw [KeyVals.assign_other _ _ _ _ hk, KeyVals.subscript_other _ _ _ hk]⟩

/-- C5, concrete instance: the sample store caches no pair (q, y) under `attr`, so
an accepted `modify("attr","q","c","y","z")` appends (c, z) and returns the
remote status 0. -/
theorem modify_fallback_witness :
    (sampleStore.modifyAttribute acceptingConn sampleEntry "attr" "q" "c" "y" "z").1 = 0 ∧
    (sampleStore.modifyAttribute acceptingConn sampleEntry "attr" "q" "c" "y" "z").2.attrValues
      "attr" = some ["a", "b", "c"] ∧
    (sampleStore.modifyAttribute acceptingConn sampleEntry "attr" "q" "c" "y" "z").2.attrUnits
      "attr" = some ["x", "y", "z"] :=
  have h := modify_fallback acceptingConn sampleEntry sampleStore "attr" "q" "c" "y" "z"
  have h2 := h.2 (by decide) (fun i hi => by
    have hlt := hi.1.lt_length
    have hi1 := hi.1.1
    have hcases : i = 0 ∨ i = 1 := by
      have : i < 2 := hlt.1
      omega
    rcases hcases with rfl | rfl
    · exact absurd hi1 (by decide)
    · exact absurd hi1 (by decide))
  ⟨h.1, h2.1, h2.2.1⟩

/-- C6 (refresh rebuild): a `refresh` whose query succeeds returns 0 and leaves a
container that depends on the three result columns only, not on the container
before: with `m` the least of the three column lengths, a name `k` occurring in
some row `i < m` is a key whose value sequence is the entries `values[i]`, and
whose unit sequence is the entries `units[i]`, of the rows `i < m` named `k`, in
row order; a name occurring in no row `i < m` is not a key (stale entries are
gone, rows at index `m` and beyond are ignored). -/
theorem refresh_rebuild (conn : RodsConnection) (objEntry : RodsObjEntry)
    (md : RodsObjMetadata) (names values units : List String)
    (hs : 0 ≤ conn.execute (refreshQuery objEntry))
    (hn : conn.getResultSet (refreshQuery objEntry) 0 = names)
    (hv : conn.getResultSet (refreshQuery objEntry) 1 = values)
    (hu : conn.getResultSet (refreshQuery objEntry) 2 = units) :
    (md.refresh conn objEntry).1 = 0 ∧
    (∀ md0 : RodsObjMetadata, (md0.refresh conn objEntry).2 = (md.refresh conn objEntry).2) ∧
    (∀ k : String,
      ((∃ i, i < min names.length (min values.length units.length) ∧ names[i]? = some k) →
        (md.refresh conn objEntry).2.attrValues k =
          some (rowsOf k names values (min names.length (min values.length units.length))) ∧
        (md.refresh conn objEntry).2.attrUnits k =
          some (rowsOf k names units (min names.length (min values.length units.length)))) ∧
      ((∀ i, i < min names.length (min values.length units.length) → names[i]? ≠ some k) →
        (md.refresh conn objEntry).2.attrValues k = none ∧
        (md.refresh conn objEntry).2.attrUnits k = none)) := by
  refine ⟨?_, ?_, ?_⟩
  · rw [refresh_success conn objEntry md hs]
  · intro md0
    rw [refresh_success conn objEntry md hs, refresh_success conn objEntry md0 hs]
  · intro k
    rw [refresh_success conn objEntry md hs, hn, hv, hu]
    have hmv : min names.length (min values.length units.length) ≤ values.length := by omega
    have hmu : min names.length (min values.length units.length) ≤ units.length := by omega
    simp only [refreshLoop_new_attrValues, refreshLoop_new_attrUnits]
    constructor
    · rintro ⟨i, hi, hk⟩
      have h1 : rowsOf k names values (min names.length (min values.length units.length)) ≠ [] :=
        fun h => (rowsOf_eq_nil_iff k names values _ hmv).mp h i hi hk
      have h2 : rowsOf k names units (min names.length (min values.length units.length)) ≠ [] :=
        fun h => (rowsOf_eq_nil_iff k names units _ hmu).mp h i hi hk
      rw [if_neg h1, if_neg h2]
      exact ⟨rfl, rfl⟩
    · intro h
      rw [if_pos ((rowsOf_eq_nil_iff k names values _ hmv).mpr h),
        if_pos ((rowsOf_eq_nil_iff k names units _ hmu).mpr h)]
      exact ⟨rfl, rfl⟩

/-- C6, concrete instance (the scenario of the specification): the query answers
the rows (color, red, ""), (color, blue, ""); whatever was cached before (here
the sample store with its attribute `attr`), `refresh` returns 0, `color` has the
values red, blue and the units "", "", and `attr` is no longer a key. -/
theorem refresh_rebuild_witness :
    (sampleStore.refresh acceptingConn sampleEntry).1 = 0 ∧
    (sampleStore.refresh acceptingConn sampleEntry).2.attrValues "color" =
      some ["red", "blue"] ∧
    (sampleStore.refresh acceptingConn sampleEntry).2.attrUnits "color" = some ["", ""] ∧
    (sampleStore.refresh acceptingConn sampleEntry).2.attrValues "attr" = none ∧
    (sampleStore.refresh acceptingConn sampleEntry).2.attrUnits "attr" = none ∧
    (RodsObjMetadata.new.refresh acceptingConn sampleEntry).2 =
      (sampleStore.refresh acceptingConn sampleEntry).2 :=
  have h := refresh_rebuild acceptingConn sampleEntry sampleStore
    ["color", "color"] ["red", "blue"] ["", ""] (by decide) rfl rfl rfl
  have hc := (h.2.2 "color").1 ⟨0, by decide, by decide⟩
  have ha := (h.2.2 "attr").2 (fun i hi hi2 => by
    have hcases : i = 0 ∨ i = 1 := by
      have : i < 2 := hi
      omega
    rcases hcases with rfl | rfl
    · exact absurd hi2 (by decide)
    · exact absurd hi2 (by decide))
  ⟨h.1, hc.1, hc.2, ha.1, ha.2, h.2.1 RodsObjMetadata.new⟩

/-- C7 (refresh atomicity): when the query's `execute` answers a negative
status, `refresh` returns exactly that status and the container afterwards is
the container before the call (nothing cleared, nothing rebuilt). -/
theorem refresh_atomicity (conn : RodsConnection) (objEntry : RodsObjEntry)
    (md : RodsObjMetadata) (h : conn.execute (refreshQuery objEntry) < 0) :
    md.refresh conn objEntry = (conn.execute (refreshQuery objEntry), md) := by
  simp only [RodsObjMetadata.refresh, if_pos h]

/-- C7, concrete instance: a rejected query leaves the sample store as it
was. -/
theorem refresh_atomicity_witness :
    rejectingConn.execute (refreshQuery sampleEntry) < 0 ∧
    sampleStore.refresh rejectingConn sampleEntry = (-818000, sampleStore) :=
  ⟨by decide, refresh_atomicity rejectingConn sampleEntry sampleStore (by decide)⟩

/-- C8 (add round trip): after an `addAttribute(n, v, u)` whose remote call
succeeds, the value sequence of `n` is its previous value sequence (empty when
`n` was absent) with `v` appended, the unit sequence of `n` is its previous unit
sequence with `u` appended, so `v` and `u` are the last entries, and the
sequences of every other name are unchanged. -/
theorem add_round_trip (conn : RodsConnection) (objEntry : RodsObjEntry)
    (md : RodsObjMetadata) (n v u : String)
    (h : 0 ≤ conn.rcModAVUMetadata (addAttributeInp objEntry n v u)) :
    (md.addAttribute conn objEntry n v u).2.attrValues n = some (md.attrValues.seq n ++ [v]) ∧
    (md.addAttribute conn objEntry n v u).2.attrUnits n = some (md.attrUnits.seq n ++ [u]) ∧
    ((md.addAttribute conn objEntry n v u).2.attrValues.seq n).getLast? = some v ∧
    ((md.addAttribute conn objEntry n v u).2.attrUnits.seq n).getLast? = some u ∧
    (∀ k, k ≠ n →
      (md.addAttribute conn objEntry n v u).2.attrValues k = md.attrValues k ∧
      (md.addAttribute conn objEntry n v u).2.attrUnits k = md.attrUnits k) := by
  have hs : ¬ conn.rcModAVUMetadata (addAttributeInp objEntry n v u) < 0 := not_lt.mpr h
  simp only [RodsObjMetadata.addAttribute, if_neg hs, RodsObjMetadata.addToStore]
  refine ⟨addToKeyVals_same _ _ _, addToKeyVals_same _ _ _, ?_, ?_, ?_⟩
  · simp [KeyVals.seq, addToKeyVals_same]
  · simp [KeyVals.seq, addToKeyVals_same]
  · intro k hk
    exact ⟨addToKeyVals_other _ _ _ _ hk, addToKeyVals_other _ _ _ _ hk⟩

/-- C8, concrete instance: adding (attr, c, z) to the sample store gives the
values a, b, c and the units x, y, z under `attr`. -/
theorem add_round_trip_witness :
    0 ≤ acceptingConn.rcModAVUMetadata (addAttributeInp sampleEntry "attr" "c" "z") ∧
    (sampleStore.addAttribute acceptingConn sampleEntry "attr" "c" "z").2.attrValues "attr" =
      some ["a", "b", "c"] ∧
    (sampleStore.addAttribute acceptingConn sampleEntry "attr" "c" "z").2.attrUnits "attr" =
      some ["x", "y", "z"] :=
  ⟨by decide,
   (add_round_trip acceptingConn sampleEntry sampleStore "attr" "c" "z" (by decide)).1,
   (add_round_trip acceptingConn sampleEntry sampleStore "attr" "c" "z" (by decide)).2.1⟩

/-- C9 (no-op remove): when no index of the sequences of `n` holds the value `v`
together with the unit `u`, a `removeAttribute(n, v, u)` whose remote call
succeeds leaves the value sequence and the unit sequence of `n` unchanged, in
length and in content, leaves every other name unchanged, and returns the remote
status; where `n` is a key of both maps, the container afterwards is the
container before.  (The equal-length invariant is not needed for this.) -/
theorem noop_remove (conn : RodsConnection) (objEntry : RodsObjEntry)
    (md : RodsObjMetadata) (n v u : String)
    (hs : 0 ≤ conn.rcModAVUMetadata (removeAttributeInp objEntry n v u))
    (hno : ∀ i, ¬ HasTriplet md n v u i) :
    (md.removeAttribute conn objEntry n v u).2.attrValues.seq n = md.attrValues.seq n ∧
    (md.removeAttribute conn objEntry n v u).2.attrUnits.seq n = md.attrUnits.seq n ∧
    ((md.removeAttribute conn objEntry n v u).2.attrValues.seq n).length =
      (md.attrValues.seq n).length ∧
    ((md.removeAttribute conn objEntry n v u).2.attrUnits.seq n).length =
      (md.attrUnits.seq n).length ∧
    (∀ k, k ≠ n →
      (md.removeAttribute conn objEntry n v u).2.attrValues k = md.attrValues k ∧
      (md.removeAttribute conn objEntry n v u).2.attrUnits k = md.attrUnits k) ∧
    ((md.attrValues n).isSome → (md.attrUnits n).isSome →
      (md.removeAttribute conn objEntry n v u).2 = md) ∧
    (md.removeAttribute conn objEntry n v u).1 =
      conn.rcModAVUMetadata (removeAttributeInp objEntry n v u) := by
  have hscan : removeScan v u (md.attrValues.seq n) (md.attrUnits.seq n) 0 =
      (md.attrValues.seq n, md.attrUnits.seq n) :=
    removeScan_noMatch _ _ _ _ 0 (fun j h1 h2 =>
      tripletMatches_false_of_not_hasTriplet md n v u j h1 h2 (fun h => hno j h.1))
  rw [removeAttribute_success conn objEntry md n v u hs, hscan]
  have e1 : ((md.attrValues.subscript n).assign n (md.attrValues.seq n)).seq n =
      md.attrValues.seq n := by
    simp [KeyVals.seq, KeyVals.assign_same]
  have e2 : ((md.attrUnits.subscript n).assign n (md.attrUnits.seq n)).seq n =
      md.attrUnits.seq n := by
    simp [KeyVals.seq, KeyVals.assign_same]
  refine ⟨e1, e2, by rw [e1], by rw [e2], ?_, ?_, rfl⟩
  · intro k hk
    exact ⟨by
        show (md.attrValues.subscript n).assign n (md.attrValues.seq n) k = md.attrValues k
        rw [KeyVals.assign_other _ _ _ _ hk, KeyVals.subscript_other _ _ _ hk],
      by
        show (md.attrUnits.subscript n).assign n (md.attrUnits.seq n) k = md.attrUnits k
        rw [KeyVals.assign_other _ _ _ _ hk, KeyVals.subscript_other _ _ _ hk]⟩
  · intro hv hu
    show RodsObjMetadata.mk ((md.attrValues.subscript n).assign n (md.attrValues.seq n))
      ((md.attrUnits.subscript n).assign n (md.attrUnits.seq n)) = md
    rw [KeyVals.subscript_of_isSome _ _ hv, KeyVals.subscript_of_isSome _ _ hu,
      KeyVals.assign_seq_of_isSome _ _ hv, KeyVals.assign_seq_of_isSome _ _ hu]

/-- C9, concrete instance: the sample store caches no pair (q, y) under `attr`; an
accepted `remove("attr","q","y")` leaves a, b and x, y there. -/
theorem noop_remove_witness :
    Correlated sampleStore ∧
    (sampleStore.removeAttribute acceptingConn sampleEntry "attr" "q" "y").2.attrValues.seq
      "attr" = ["a", "b"] ∧
    (sampleStore.removeAttribute acceptingConn sampleEntry "attr" "q" "y").2.attrUnits.seq
      "attr" = ["x", "y"] ∧
    (sampleStore.removeAttribute acceptingConn sampleEntry "attr" "q" "y").2 = sampleStore :=
  have h := noop_remove acceptingConn sampleEntry sampleStore "attr" "q" "y" (by decide)
    (fun i hi => by
      have hlt := hi.lt_length
      have hi1 := hi.1
      have hcases : i = 0 ∨ i = 1 := by
        have : i < 2 := hlt.1
        omega
      rcases hcases with rfl | rfl
      · exact absurd hi1 (by decide)
      · exact absurd hi1 (by decide))
  ⟨correlated_sampleStore, h.1, h.2.1, h.2.2.2.2.2.1 rfl rfl⟩

/-- C10 (add preserves duplicates): `addAttribute` performs no duplicate check:
on every store a successful `addAttribute(k, v, u)` makes the value sequence and
the unit sequence of `k` longer by exactly one, even where the triplet is cached
already; and two successive successful `add("k","v","u")` on the fresh container
leave the values v, v and the units u, u under `k`. -/
theorem add_preserves_duplicates :
    (∀ (conn : RodsConnection) (objEntry : RodsObjEntry) (md : RodsObjMetadata)
        (k v u : String),
      0 ≤ conn.rcModAVUMetadata (addAttributeInp objEntry k v u) →
        ((md.addAttribute conn objEntry k v u).2.attrValues.seq k).length =
          (md.attrValues.seq k).length + 1 ∧
        ((md.addAttribute conn objEntry k v u).2.attrUnits.seq k).length =
          (md.attrUnits.seq k).length + 1) ∧
    (∀ (conn1 conn2 : RodsConnection) (objEntry : RodsObjEntry),
      0 ≤ conn1.rcModAVUMetadata (addAttributeInp objEntry "k" "v" "u") →
      0 ≤ conn2.rcModAVUMetadata (addAttributeInp objEntry "k" "v" "u") →
        ((RodsObjMetadata.new.addAttribute conn1 objEntry "k" "v" "u").2.addAttribute
            conn2 objEntry "k" "v" "u").2.attrValues "k" = some ["v", "v"] ∧
        ((RodsObjMetadata.new.addAttribute conn1 objEntry "k" "v" "u").2.addAttribute
            conn2 objEntry "k" "v" "u").2.attrUnits "k" = some ["u", "u"]) := by
  constructor
  · intro conn objEntry md k v u h
    have hs : ¬ conn.rcModAVUMetadata (addAttributeInp objEntry k v u) < 0 := not_lt.mpr h
    simp [RodsObjMetadata.addAttribute, if_neg hs, RodsObjMetadata.addToStore,
      KeyVals.seq, addToKeyVals_same]
  · intro conn1 conn2 objEntry h1 h2
    have hs1 : ¬ conn1.rcModAVUMetadata (addAttributeInp objEntry "k" "v" "u") < 0 :=
      not_lt.mpr h1
    have hs2 : ¬ conn2.rcModAVUMetadata (addAttributeInp objEntry "k" "v" "u") < 0 :=
      not_lt.mpr h2
    simp [RodsObjMetadata.addAttribute, if_neg hs1, if_neg hs2, RodsObjMetadata.addToStore,
      KeyVals.seq, addToKeyVals_same, RodsObjMetadata.new, KeyVals.empty]

/-- C10, concrete instance: the sample store caches (attr, b, y); adding the same
triplet again makes both sequences of `attr` three entries long; and two accepted
`add("k","v","u")` on the fresh container give v, v and u, u. -/
theorem add_preserves_duplicates_witness :
    HasTriplet sampleStore "attr" "b" "y" 1 ∧
    ((sampleStore.addAttribute acceptingConn sampleEntry "attr" "b" "y").2.attrValues.seq
      "attr").length = 3 ∧
    ((sampleStore.addAttribute acceptingConn sampleEntry "attr" "b" "y").2.attrUnits.seq
      "attr").length = 3 ∧
    ((RodsObjMetadata.new.addAttribute acceptingConn sampleEntry "k" "v" "u").2.addAttribute
        acceptingConn sampleEntry "k" "v" "u").2.attrValues "k" = some ["v", "v"] ∧
    ((RodsObjMetadata.new.addAttribute acceptingConn sampleEntry "k" "v" "u").2.addAttribute
        acceptingConn sampleEntry "k" "v" "u").2.attrUnits "k" = some ["u", "u"] :=
  ⟨⟨rfl, rfl⟩,
   (add_preserves_duplicates.1 acceptingConn sampleEntry sampleStore "attr" "b" "y"
      (by decide)).1,
   (add_preserves_duplicates.1 acceptingConn sampleEntry sampleStore "attr" "b" "y"
      (by decide)).2,
   (add_preserves_duplicates.2 acceptingConn acceptingConn sampleEntry
      (by decide) (by decide)).1,
   (add_preserves_duplicates.2 acceptingConn acceptingConn sampleEntry
      (by decide) (by decide)).2⟩

/-- C11 (modify wire encoding), as stated, fails: with the old unit made of one
NUL character, which is a non-empty string, `modifyAttribute` takes the branch
that sends the old unit, and slot 5 carries the empty C string, not the old
unit; and a name a NUL b is sent as a. -/
theorem modify_wire_encoding_counterexample :
    "\x00" ≠ "" ∧
    (modifyAttributeInp sampleEntry "a\x00b" "b" "c" "\x00" "z").toList =
      ["mod", "-d", "/zone/home/file.dat", "a", "b", "", "v:c", "u:z", "", ""] ∧
    (modifyAttributeInp sampleEntry "a\x00b" "b" "c" "\x00" "z").toList ≠
      ["mod", "-d", "/zone/home/file.dat", "a\x00b", "b", "\x00", "v:c", "u:z", "", ""] := by
  refine ⟨by decide, by decide, by decide⟩

/-- C11 (modify wire encoding, amended): the one remote call of `modifyAttribute`
is made on the record `modifyAttributeInp`.  Every slot carries a C string: an
argument is handed over up to its first NUL character.  The ten slots are
"mod", kind, path, name, oldValue, oldUnit, "v:" ++ newValue, "u:" ++ newUnit,
"", "" when `oldUnit` is non-empty, and
"mod", kind, path, name, oldValue, "v:" ++ newValue, "", "", "", "" when `oldUnit`
is empty (then `newUnit` is not sent, whatever it is), each of path, name,
oldValue, oldUnit and the two prefixed arguments cut at its first NUL; so for
arguments without a NUL character the slots are exactly these strings.  Kind is
the data-object marker for a data object and the collection marker otherwise. -/
theorem modify_wire_encoding (conn : RodsConnection) (objEntry : RodsObjEntry)
    (md : RodsObjMetadata) (name oldValue newValue oldUnit newUnit : String) :
    (md.modifyAttribute conn objEntry name oldValue newValue oldUnit newUnit).1 =
      conn.rcModAVUMetadata
        (modifyAttributeInp objEntry name oldValue newValue oldUnit newUnit) ∧
    (oldUnit ≠ "" →
      (modifyAttributeInp objEntry name oldValue newValue oldUnit newUnit).toList =
        ["mod",
         if objEntry.objType = ObjType.DATA_OBJ_T then objEntry.DataObjType.val
         else objEntry.CollObjType.val,
         (c_str objEntry.getObjectFullPath).val, (c_str name).val, (c_str oldValue).val,
         (c_str oldUnit).val,
         (c_str ("v:" ++ newValue)).val, (c_str ("u:" ++ newUnit)).val, "", ""]) ∧
    (oldUnit = "" →
      (modifyAttributeInp objEntry name oldValue newValue oldUnit newUnit).toList =
        ["mod",
         if objEntry.objType = ObjType.DATA_OBJ_T then objEntry.DataObjType.val
         else objEntry.CollObjType.val,
         (c_str objEntry.getObjectFullPath).val, (c_str name).val, (c_str oldValue).val,
         (c_str ("v:" ++ newValue)).val, "", "", "", ""]) ∧
    (NUL ∉ objEntry.getObjectFullPath.data → NUL ∉ name.data → NUL ∉ oldValue.data →
      NUL ∉ newValue.data → NUL ∉ oldUnit.data → NUL ∉ newUnit.data →
      (oldUnit ≠ "" →
        (modifyAttributeInp objEntry name oldValue newValue oldUnit newUnit).toList =
          ["mod",
           if objEntry.objType = ObjType.DATA_OBJ_T then objEntry.DataObjType.val
           else objEntry.CollObjType.val,
           objEntry.getObjectFullPath, name, oldValue, oldUnit,
           "v:" ++ newValue, "u:" ++ newUnit, "", ""]) ∧
      (oldUnit = "" →
        (modifyAttributeInp objEntry name oldValue newValue oldUnit newUnit).toList =
          ["mod",
           if objEntry.objType = ObjType.DATA_OBJ_T then objEntry.DataObjType.val
           else objEntry.CollObjType.val,
           objEntry.getObjectFullPath, name, oldValue,
           "v:" ++ newValue, "", "", "", ""])) := by
  have hnon : oldUnit ≠ "" →
      (modifyAttributeInp objEntry name oldValue newValue oldUnit newUnit).toList =
        ["mod",
         if objEntry.objType = ObjType.DATA_OBJ_T then objEntry.DataObjType.val
         else objEntry.CollObjType.val,
         (c_str objEntry.getObjectFullPath).val, (c_str name).val, (c_str oldValue).val,
         (c_str oldUnit).val,
         (c_str ("v:" ++ newValue)).val, (c_str ("u:" ++ newUnit)).val, "", ""] := by
    intro hne
    have hlen : oldUnit.length > 0 := Nat.pos_of_ne_zero ((length_ne_zero_iff oldUnit).mpr hne)
    simp only [modifyAttributeInp, if_pos hlen, ModAVUMetadataInp.toList, ModOperation,
      objTypeArg, emptyCString]
    split <;> rfl
  have hemp : oldUnit = "" →
      (modifyAttributeInp objEntry name oldValue newValue oldUnit newUnit).toList =
        ["mod",
         if objEntry.objType = ObjType.DATA_OBJ_T then objEntry.DataObjType.val
         else objEntry.CollObjType.val,
         (c_str objEntry.getObjectFullPath).val, (c_str name).val, (c_str oldValue).val,
         (c_str ("v:" ++ newValue)).val, "", "", "", ""] := by
    intro he
    subst he
    have hlen : ¬ "".length > 0 := by decide
    simp only [modifyAttributeInp, if_neg hlen, ModAVUMetadataInp.toList, ModOperation,
      objTypeArg, emptyCString]
    split <;> rfl
  refine ⟨?_, hnon, hemp, ?_⟩
  · by_cases hs : conn.rcModAVUMetadata
        (modifyAttributeInp objEntry name oldValue newValue oldUnit newUnit) < 0
    · simp only [RodsObjMetadata.modifyAttribute, if_pos hs]
    · rw [modifyAttribute_success conn objEntry md name oldValue newValue oldUnit newUnit
        (not_lt.mp hs)]
  · intro hp hn hov hnv hou hnu
    have hvp : NUL ∉ ("v:" : String).data := by decide
    have hup : NUL ∉ ("u:" : String).data := by decide
    constructor
    · intro hne
      rw [hnon hne, c_str_val_of_no_nul _ hp, c_str_val_of_no_nul _ hn,
        c_str_val_of_no_nul _ hov, c_str_val_of_no_nul _ hou,
        c_str_val_of_no_nul _ (no_nul_append _ _ hvp hnv),
        c_str_val_of_no_nul _ (no_nul_append _ _ hup hnu)]
    · intro he
      rw [hemp he, c_str_val_of_no_nul _ hp, c_str_val_of_no_nul _ hn,
        c_str_val_of_no_nul _ hov, c_str_val_of_no_nul _ (no_nul_append _ _ hvp hnv)]

/-- C11, concrete instance: for the data object `/zone/home/file.dat` with the
markers -d and -C, `modify("attr","b","c","y","z")` sends the old unit y and the
arguments v:c and u:z, and `modify("attr","b","c","","z")` sends v:c alone. -/
theorem modify_wire_encoding_witness :
    (modifyAttributeInp sampleEntry "attr" "b" "c" "y" "z").toList =
      ["mod", "-d", "/zone/home/file.dat", "attr", "b", "y", "v:c", "u:z", "", ""] ∧
    (modifyAttributeInp sampleEntry "attr" "b" "c" "" "z").toList =
      ["mod", "-d", "/zone/home/file.dat", "attr", "b", "v:c", "", "", "", ""] :=
  ⟨((modify_wire_encoding acceptingConn sampleEntry sampleStore "attr" "b" "c" "y" "z").2.2.2
      (by decide) (by decide) (by decide) (by decide) (by decide) (by decide)).1 (by decide),
   ((modify_wire_encoding acceptingConn sampleEntry sampleStore "attr" "b" "c" "" "z").2.2.2
      (by decide) (by decide) (by decide) (by decide) (by decide) (by decide)).2 rfl⟩

/-- C12 (refresh query construction): the query `refresh` executes is
`refreshQuery`.  For a data object it projects exactly the three data-object AVU
columns name, value, unit, in that order, under exactly two equality conditions,
data-object name = `objName`, then collection name = `collPath`; for a
collection it projects exactly the three collection AVU columns name, value,
unit, in that order, under exactly one equality condition, collection name =
`objName`. -/
theorem refresh_query_construction (conn : RodsConnection) (objEntry : RodsObjEntry)
    (md : RodsObjMetadata) :
    (md.refresh conn objEntry).1 =
      (if conn.execute (refreshQuery objEntry) < 0 then conn.execute (refreshQuery objEntry)
       else 0) ∧
    (objEntry.objType = ObjType.DATA_OBJ_T →
      refreshQuery objEntry =
        { queryAttrs := [Column.COL_META_DATA_ATTR_NAME, Column.COL_META_DATA_ATTR_VALUE,
            Column.COL_META_DATA_ATTR_UNITS]
          queryConds := [(Column.COL_DATA_NAME, CondOperator.isEqual, objEntry.objName),
            (Column.COL_COLL_NAME, CondOperator.isEqual, objEntry.collPath)] }) ∧
    (objEntry.objType = ObjType.COLL_OBJ_T →
      refreshQuery objEntry =
        { queryAttrs := [Column.COL_META_COLL_ATTR_NAME, Column.COL_META_COLL_ATTR_VALUE,
            Column.COL_META_COLL_ATTR_UNITS]
          queryConds := [(Column.COL_COLL_NAME, CondOperator.isEqual, objEntry.objName)] }) := by
  refine ⟨?_, ?_, ?_⟩
  · by_cases hs : conn.execute (refreshQuery objEntry) < 0
    · simp only [RodsObjMetadata.refresh, if_pos hs]
    · simp only [RodsObjMetadata.refresh, if_neg hs]
  · intro h
    simp [refreshQuery, h, RodsGenQuery.new, RodsGenQuery.addQueryAttribute,
      RodsGenQuery.addQueryCondition]
  · intro h
    simp [refreshQuery, h, RodsGenQuery.new, RodsGenQuery.addQueryAttribute,
      RodsGenQuery.addQueryCondition]

/-- C12, concrete instance: the queries composed for the data object
`/zone/home/file.dat` and for the collection `/zone/home/coll`. -/
theorem refresh_query_construction_witness :
    refreshQuery sampleEntry =
      { queryAttrs := [Column.COL_META_DATA_ATTR_NAME, Column.COL_META_DATA_ATTR_VALUE,
          Column.COL_META_DATA_ATTR_UNITS]
        queryConds := [(Column.COL_DATA_NAME, CondOperator.isEqual, "file.dat"),
          (Column.COL_COLL_NAME, CondOperator.isEqual, "/zone/home")] } ∧
    refreshQuery sampleColl =
      { queryAttrs := [Column.COL_META_COLL_ATTR_NAME, Column.COL_META_COLL_ATTR_VALUE,
          Column.COL_META_COLL_ATTR_UNITS]
        queryConds := [(Column.COL_COLL_NAME, CondOperator.isEqual, "/zone/home/coll")] } :=
  ⟨(refresh_query_construction acceptingConn sampleEntry sampleStore).2.1 rfl,
   (refresh_query_construction acceptingConn sampleColl sampleStore).2.2 rfl⟩

/-- C13 (status convention), as stated, fails: the remote side `statusOneConn`
reports success with the non-negative status 1, and `addAttribute`,
`modifyAttribute` and `removeAttribute` then return 1, which is neither negative
nor zero. -/
theorem status_convention_counterexample :
    0 ≤ statusOneConn.rcModAVUMetadata (addAttributeInp sampleEntry "attr" "c" "z") ∧
    (sampleStore.addAttribute statusOneConn sampleEntry "attr" "c" "z").1 = 1 ∧
    (sampleStore.modifyAttribute statusOneConn sampleEntry "attr" "b" "c" "y" "z").1 = 1 ∧
    (sampleStore.removeAttribute statusOneConn sampleEntry "attr" "b" "y").1 = 1 ∧
    ¬ ((sampleStore.addAttribute statusOneConn sampleEntry "attr" "c" "z").1 < 0 ∨
       (sampleStore.addAttribute statusOneConn sampleEntry "attr" "c" "z").1 = 0) := by
  have ha : (sampleStore.addAttribute statusOneConn sampleEntry "attr" "c" "z").1 = 1 := by
    simp [RodsObjMetadata.addAttribute, statusOneConn]
  have hm : (sampleStore.modifyAttribute statusOneConn sampleEntry "attr" "b" "c" "y" "z").1
      = 1 := by
    rw [modifyAttribute_success statusOneConn sampleEntry sampleStore "attr" "b" "c" "y" "z"
      (by decide)]
    rfl
  have hr : (sampleStore.removeAttribute statusOneConn sampleEntry "attr" "b" "y").1 = 1 := by
    rw [removeAttribute_success statusOneConn sampleEntry sampleStore "attr" "b" "y"
      (by decide)]
    rfl
  refine ⟨by decide, ha, hm, hr, ?_⟩
  rw [ha]
  decide

/-- C13 (status convention, amended): the status `refresh` returns is negative
or zero: it is the status of `execute` when that is negative and 0 otherwise;
`addAttribute`, `modifyAttribute` and `removeAttribute` return exactly the status
of their remote call, on failure and on success alike, so they return 0 exactly
when the remote side answered 0. -/
theorem status_convention (conn : RodsConnection) (objEntry : RodsObjEntry)
    (md : RodsObjMetadata) (name value newValue unit newUnit : String) :
    ((md.refresh conn objEntry).1 < 0 ∨ (md.refresh conn objEntry).1 = 0) ∧
    (conn.execute (refreshQuery objEntry) < 0 →
      (md.refresh conn objEntry).1 = conn.execute (refreshQuery objEntry)) ∧
    (0 ≤ conn.execute (refreshQuery objEntry) → (md.refresh conn objEntry).1 = 0) ∧
    (md.addAttribute conn objEntry name value unit).1 =
      conn.rcModAVUMetadata (addAttributeInp objEntry name value unit) ∧
    (md.modifyAttribute conn objEntry name value newValue unit newUnit).1 =
      conn.rcModAVUMetadata (modifyAttributeInp objEntry name value newValue unit newUnit) ∧
    (md.removeAttribute conn objEntry name value unit).1 =
      conn.rcModAVUMetadata (removeAttributeInp objEntry name value unit) := by
  refine ⟨?_, ?_, ?_, ?_, ?_, ?_⟩
  · by_cases hs : conn.execute (refreshQuery objEntry) < 0
    · left
      simp only [RodsObjMetadata.refresh, if_pos hs]
      exact hs
    · right
      rw [refresh_success conn objEntry md (not_lt.mp hs)]
  · intro hs
    simp only [RodsObjMetadata.refresh, if_pos hs]
  · intro hs
    rw [refresh_success conn objEntry md hs]
  · by_cases hs : conn.rcModAVUMetadata (addAttributeInp objEntry name value unit) < 0
    · simp only [RodsObjMetadata.addAttribute, if_pos hs]
    · simp only [RodsObjMetadata.addAttribute, if_neg hs]
  · by_cases hs : conn.rcModAVUMetadata
        (modifyAttributeInp objEntry name value newValue unit newUnit) < 0
    · simp only [RodsObjMetadata.modifyAttribute, if_pos hs]
    · rw [modifyAttribute_success conn objEntry md name value newValue unit newUnit
        (not_lt.mp hs)]
  · by_cases hs : conn.rcModAVUMetadata (removeAttributeInp objEntry name value unit) < 0
    · simp only [RodsObjMetadata.removeAttribute, if_pos hs]
    · rw [removeAttribute_success conn objEntry md name value unit (not_lt.mp hs)]

/-- C14 (add / remove wire encoding), as stated, fails: for the name a NUL b,
the value v NUL w and the unit u NUL x, `addAttribute` and `removeAttribute`
send a, v and u, not the three strings themselves. -/
theorem add_remove_wire_encoding_counterexample :
    (addAttributeInp sampleEntry "a\x00b" "v\x00w" "u\x00x").toList =
      ["add", "-d", "/zone/home/file.dat", "a", "v", "u", "", "", "", ""] ∧
    (addAttributeInp sampleEntry "a\x00b" "v\x00w" "u\x00x").toList ≠
      ["add", "-d", "/zone/home/file.dat", "a\x00b", "v\x00w", "u\x00x", "", "", "", ""] ∧
    (removeAttributeInp sampleEntry "a\x00b" "v\x00w" "u\x00x").toList =
      ["rm", "-d", "/zone/home/file.dat", "a", "v", "u", "", "", "", ""] ∧
    (removeAttributeInp sampleEntry "a\x00b" "v\x00w" "u\x00x").toList ≠
      ["rm", "-d", "/zone/home/file.dat", "a\x00b", "v\x00w", "u\x00x", "", "", "", ""] := by
  refine ⟨by decide, by decide, by decide, by decide⟩

/-- C14 (add / remove wire encoding, amended): the one remote call of
`addAttribute` is made on the record `addAttributeInp`, whose ten slots are
"add", kind, path, name, value, unit, "", "", "", "", and the one remote call of
`removeAttribute` on the record `removeAttributeInp`, whose slots are
"rm", kind, path, name, value, unit, "", "", "", "".  Every slot carries a C
string: path, name, value and unit are each handed over up to their first NUL
character, so for arguments without a NUL character the slots are exactly these
strings.  Kind is the data-object marker exactly when the object is a data
object, the collection marker otherwise. -/
theorem add_remove_wire_encoding (conn : RodsConnection) (objEntry : RodsObjEntry)
    (md : RodsObjMetadata) (name value unit : String) :
    (md.addAttribute conn objEntry name value unit).1 =
      conn.rcModAVUMetadata (addAttributeInp objEntry name value unit) ∧
    (addAttributeInp objEntry name value unit).toList =
      ["add",
       if objEntry.objType = ObjType.DATA_OBJ_T then objEntry.DataObjType.val
       else objEntry.CollObjType.val,
       (c_str objEntry.getObjectFullPath).val, (c_str name).val, (c_str value).val,
       (c_str unit).val, "", "", "", ""] ∧
    (md.removeAttribute conn objEntry name value unit).1 =
      conn.rcModAVUMetadata (removeAttributeInp objEntry name value unit) ∧
    (removeAttributeInp objEntry name value unit).toList =
      ["rm",
       if objEntry.objType = ObjType.DATA_OBJ_T then objEntry.DataObjType.val
       else objEntry.CollObjType.val,
       (c_str objEntry.getObjectFullPath).val, (c_str name).val, (c_str value).val,
       (c_str unit).val, "", "", "", ""] ∧
    (NUL ∉ objEntry.getObjectFullPath.data → NUL ∉ name.data → NUL ∉ value.data →
      NUL ∉ unit.data →
      (addAttributeInp objEntry name value unit).toList =
        ["add",
         if objEntry.objType = ObjType.DATA_OBJ_T then objEntry.DataObjType.val
         else objEntry.CollObjType.val,
         objEntry.getObjectFullPath, name, value, unit, "", "", "", ""] ∧
      (removeAttributeInp objEntry name value unit).toList =
        ["rm",
         if objEntry.objType = ObjType.DATA_OBJ_T then objEntry.DataObjType.val
         else objEntry.CollObjType.val,
         objEntry.getObjectFullPath, name, value, unit, "", "", "", ""]) := by
  have hadd : (addAttributeInp objEntry name value unit).toList =
      ["add",
       if objEntry.objType = ObjType.DATA_OBJ_T then objEntry.DataObjType.val
       else objEntry.CollObjType.val,
       (c_str objEntry.getObjectFullPath).val, (c_str name).val, (c_str value).val,
       (c_str unit).val, "", "", "", ""] := by
    simp only [addAttributeInp, ModAVUMetadataInp.toList, AddOperation, objTypeArg,
      emptyCString]
    split <;> rfl
  have hrm : (removeAttributeInp objEntry name value unit).toList =
      ["rm",
       if objEntry.objType = ObjType.DATA_OBJ_T then objEntry.DataObjType.val
       else objEntry.CollObjType.val,
       (c_str objEntry.getObjectFullPath).val, (c_str name).val, (c_str value).val,
       (c_str unit).val, "", "", "", ""] := by
    simp only [removeAttributeInp, ModAVUMetadataInp.toList, RmOperation, objTypeArg,
      emptyCString]
    split <;> rfl
  refine ⟨?_, hadd, ?_, hrm, ?_⟩
  · by_cases hs : conn.rcModAVUMetadata (addAttributeInp objEntry name value unit) < 0
    · simp only [RodsObjMetadata.addAttribute, if_pos hs]
    · simp only [RodsObjMetadata.addAttribute, if_neg hs]
  · by_cases hs : conn.rcModAVUMetadata (removeAttributeInp objEntry name value unit) < 0
    · simp only [RodsObjMetadata.removeAttribute, if_pos hs]
    · rw [removeAttribute_success conn objEntry md name value unit (not_lt.mp hs)]
  · intro hp hn hv hu
    constructor
    · rw [hadd, c_str_val_of_no_nul _ hp, c_str_val_of_no_nul _ hn, c_str_val_of_no_nul _ hv,
        c_str_val_of_no_nul _ hu]
    · rw [hrm, c_str_val_of_no_nul _ hp, c_str_val_of_no_nul _ hn, c_str_val_of_no_nul _ hv,
        c_str_val_of_no_nul _ hu]

/-- C14, concrete instance: for the data object `/zone/home/file.dat` and for
the collection `/zone/home/coll`, with the markers -d and -C, the slots sent for
(attr, b, y). -/
theorem add_remove_wire_encoding_witness :
    (addAttributeInp sampleEntry "attr" "b" "y").toList =
      ["add", "-d", "/zone/home/file.dat", "attr", "b", "y", "", "", "", ""] ∧
    (removeAttributeInp sampleColl "attr" "b" "y").toList =
      ["rm", "-C", "/zone/home/coll", "attr", "b", "y", "", "", "", ""] :=
  ⟨((add_remove_wire_encoding acceptingConn sampleEntry sampleStore "attr" "b" "y").2.2.2.2
      (by decide) (by decide) (by decide) (by decide)).1,
   ((add_remove_wire_encoding acceptingConn sampleColl sampleStore "attr" "b" "y").2.2.2.2
      (by decide) (by decide) (by decide) (by decide)).2⟩

/-- C15 (skip after erase): when `u` is non-empty and the sequences of `n`
consist of exactly `k` copies of the pair (`v`, `u`), a `removeAttribute(n, v, u)`
whose remote call succeeds leaves exactly `k / 2` (rounded down) copies: the
counter is incremented after each erase, so every second copy is never
tested. -/
theorem skip_after_erase (conn : RodsConnection) (objEntry : RodsObjEntry)
    (md : RodsObjMetadata) (n v u : String) (k : Nat)
    (hs : 0 ≤ conn.rcModAVUMetadata (removeAttributeInp objEntry n v u))
    (hu : u ≠ "")
    (hvals : md.attrValues.seq n = List.replicate k v)
    (hunits : md.attrUnits.seq n = List.replicate k u) :
    (md.removeAttribute conn objEntry n v u).2.attrValues n = some (List.replicate (k / 2) v) ∧
    (md.removeAttribute conn objEntry n v u).2.attrUnits n = some (List.replicate (k / 2) u) := by
  rw [removeAttribute_success conn objEntry md n v u hs, hvals, hunits,
    removeScan_replicate v u hu k 0]
  have e : k - (k - 0 + 1) / 2 = k / 2 := by omega
  rw [e]
  exact ⟨KeyVals.assign_same _ _ _, KeyVals.assign_same _ _ _⟩

/-- C15, concrete instance: of the three copies of (v, u) under `k` an accepted
`remove("k","v","u")` leaves one. -/
theorem skip_after_erase_witness :
    tripleStore.attrValues "k" = some ["v", "v", "v"] ∧
    tripleStore.attrUnits "k" = some ["u", "u", "u"] ∧
    (tripleStore.removeAttribute acceptingConn sampleEntry "k" "v" "u").2.attrValues "k" =
      some ["v"] ∧
    (tripleStore.removeAttribute acceptingConn sampleEntry "k" "v" "u").2.attrUnits "k" =
      some ["u"] :=
  ⟨rfl, rfl,
   (skip_after_erase acceptingConn sampleEntry tripleStore "k" "v" "u" 3
      (by decide) (by decide) rfl rfl).1,
   (skip_after_erase acceptingConn sampleEntry tripleStore "k" "v" "u" 3
      (by decide) (by decide) rfl rfl).2⟩

/-- C16 (remove only drops matching pairs): after a `removeAttribute(n, v, u)`
whose remote call succeeds, the list of (value, unit) pairs of `n` is a sublist,
order preserved, of the list before; every pair other than (`v`, `u`) occurs in
it as often as before, so every dropped pair is (`v`, `u`); nothing is dropped
when `u` is empty; every other name is unchanged; and when some index held the
pair (`v`, `u`) with `u` non-empty, both sequences of `n` get strictly shorter.
(The equal-length invariant is not needed for this.) -/
theorem remove_drops_only_matching (conn : RodsConnection) (objEntry : RodsObjEntry)
    (md : RodsObjMetadata) (n v u : String)
    (hs : 0 ≤ conn.rcModAVUMetadata (removeAttributeInp objEntry n v u)) :
    (List.zip ((md.removeAttribute conn objEntry n v u).2.attrValues.seq n)
      ((md.removeAttribute conn objEntry n v u).2.attrUnits.seq n)).Sublist
        (List.zip (md.attrValues.seq n) (md.attrUnits.seq n)) ∧
    (∀ q : String × String, q ≠ (v, u) →
      (List.zip ((md.removeAttribute conn objEntry n v u).2.attrValues.seq n)
        ((md.removeAttribute conn objEntry n v u).2.attrUnits.seq n)).count q =
        (List.zip (md.attrValues.seq n) (md.attrUnits.seq n)).count q) ∧
    (u = "" →
      (md.removeAttribute conn objEntry n v u).2.attrValues.seq n = md.attrValues.seq n ∧
      (md.removeAttribute conn objEntry n v u).2.attrUnits.seq n = md.attrUnits.seq n) ∧
    (∀ k, k ≠ n →
      (md.removeAttribute conn objEntry n v u).2.attrValues k = md.attrValues k ∧
      (md.removeAttribute conn objEntry n v u).2.attrUnits k = md.attrUnits k) ∧
    ((∃ i, HasTriplet md n v u i) → u ≠ "" →
      ((md.removeAttribute conn objEntry n v u).2.attrValues.seq n).length <
        (md.attrValues.seq n).length ∧
      ((md.removeAttribute conn objEntry n v u).2.attrUnits.seq n).length <
        (md.attrUnits.seq n).length) := by
  rw [removeAttribute_success conn objEntry md n v u hs]
  simp only [KeyVals.seq, KeyVals.assign_same, Option.getD_some]
  refine ⟨?_, ?_, ?_, ?_, ?_⟩
  · exact removeScan_zip_sublist v u _ _ 0
  · intro q hq
    exact removeScan_zip_count v u _ _ 0 q hq
  · intro hu
    subst hu
    rw [removeScan_noMatch v "" _ _ 0 (fun j h1 h2 => tripletMatches_unitless _ _ _)]
    exact ⟨rfl, rfl⟩
  · intro k hk
    exact ⟨by rw [KeyVals.assign_other _ _ _ _ hk, KeyVals.subscript_other _ _ _ hk],
      by rw [KeyVals.assign_other _ _ _ _ hk, KeyVals.subscript_other _ _ _ hk]⟩
  · rintro ⟨i, hi⟩ hu
    have hlt := hi.lt_length
    exact removeScan_length_lt v u _ _ 0
      ⟨i, Nat.zero_le i, hlt.1, hlt.2, tripletMatches_of_hasTriplet md n v u i hlt.1 hlt.2 hi hu⟩

/-- C16, concrete instance: the sample store holds (a, x), (b, y) under `attr`;
an accepted `remove("attr","a","x")` leaves (b, y) alone there. -/
theorem remove_drops_only_matching_witness :
    Correlated sampleStore ∧
    (sampleStore.removeAttribute acceptingConn sampleEntry "attr" "a" "x").2.attrValues "attr" =
      some ["b"] ∧
    (sampleStore.removeAttribute acceptingConn sampleEntry "attr" "a" "x").2.attrUnits "attr" =
      some ["y"] ∧
    (List.zip
      ((sampleStore.removeAttribute acceptingConn sampleEntry "attr" "a" "x").2.attrValues.seq
        "attr")
      ((sampleStore.removeAttribute acceptingConn sampleEntry "attr" "a" "x").2.attrUnits.seq
        "attr")).Sublist [("a", "x"), ("b", "y")] := by
  have h := remove_drops_only_matching acceptingConn sampleEntry sampleStore "attr" "a" "x"
    (by decide)
  have hscan : removeScan "a" "x" ["a", "b"] ["x", "y"] 0 = (["b"], ["y"]) := by
    simp [removeScan, tripletMatches, String.length]
  have hv : (sampleStore.removeAttribute acceptingConn sampleEntry "attr" "a" "x").2.attrValues
      "attr" = some ["b"] := by
    rw [removeAttribute_success acceptingConn sampleEntry sampleStore "attr" "a" "x"
      (by decide)]
    simp [KeyVals.assign_same, KeyVals.seq, sampleStore, hscan]
  have hu : (sampleStore.removeAttribute acceptingConn sampleEntry "attr" "a" "x").2.attrUnits
      "attr" = some ["y"] := by
    rw [removeAttribute_success acceptingConn sampleEntry sampleStore "attr" "a" "x"
      (by decide)]
    simp [KeyVals.assign_same, KeyVals.seq, sampleStore, hscan]
  exact ⟨correlated_sampleStore, hv, hu, h.1⟩

/-- C17 (unit-less modify never overwrites): a `modifyAttribute(name, oldValue,
newValue, "", newUnit)` whose remote call succeeds overwrites nothing: every
existing entry of the sequences of `name` keeps its index and content, a cached
triplet (`name`, `oldValue`, "") included, and (`newValue`, `newUnit`) is appended,
so both lengths grow by exactly one.  (The equal-length invariant is not needed
for this.) -/
theorem unitless_modify_appends (conn : RodsConnection) (objEntry : RodsObjEntry)
    (md : RodsObjMetadata) (name oldValue newValue newUnit : String)
    (hs : 0 ≤ conn.rcModAVUMetadata
      (modifyAttributeInp objEntry name oldValue newValue "" newUnit)) :
    (md.modifyAttribute conn objEntry name oldValue newValue "" newUnit).2.attrValues name =
      some (md.attrValues.seq name ++ [newValue]) ∧
    (md.modifyAttribute conn objEntry name oldValue newValue "" newUnit).2.attrUnits name =
      some (md.attrUnits.seq name ++ [newUnit]) ∧
    ((md.modifyAttribute conn objEntry name oldValue newValue "" newUnit).2.attrValues.seq
      name).length = (md.attrValues.seq name).length + 1 ∧
    ((md.modifyAttribute conn objEntry name oldValue newValue "" newUnit).2.attrUnits.seq
      name).length = (md.attrUnits.seq name).length + 1 ∧
    (∀ i value unit, HasTriplet md name value unit i →
      HasTriplet (md.modifyAttribute conn objEntry name oldValue newValue "" newUnit).2
        name value unit i) := by
  have hscan : modifyScan oldValue newValue "" newUnit
      (md.attrValues.seq name) (md.attrUnits.seq name) 0 =
      (md.attrValues.seq name ++ [newValue], md.attrUnits.seq name ++ [newUnit]) :=
    modifyScan_noMatch _ _ _ _ _ _ 0 (fun j _ _ => tripletMatches_unitless _ _ _)
  rw [modifyAttribute_success conn objEntry md name oldValue newValue "" newUnit hs, hscan]
  simp only [KeyVals.assign_same, KeyVals.seq, Option.getD_some, HasTriplet]
  refine ⟨trivial, trivial, ?_, ?_, ?_⟩
  · simp
  · simp
  · rintro i value unit ⟨hv, hu⟩
    have h1 := (List.getElem?_eq_some_iff.mp hv).1
    have h2 := (List.getElem?_eq_some_iff.mp hu).1
    exact ⟨by rw [List.getElem?_append_left h1]; exact hv,
      by rw [List.getElem?_append_left h2]; exact hu⟩

/-- C17, concrete instance: the store caches (color, red, ""); an accepted
`modify("color","red","green","","nm")` keeps red, blue with their empty units
and appends (green, nm). -/
theorem unitless_modify_appends_witness :
    HasTriplet unitlessStore "color" "red" "" 0 ∧
    (unitlessStore.modifyAttribute acceptingConn sampleEntry "color" "red" "green" ""
      "nm").2.attrValues "color" = some ["red", "blue", "green"] ∧
    (unitlessStore.modifyAttribute acceptingConn sampleEntry "color" "red" "green" ""
      "nm").2.attrUnits "color" = some ["", "", "nm"] :=
  ⟨⟨rfl, rfl⟩,
   (unitless_modify_appends acceptingConn sampleEntry unitlessStore "color" "red" "green" "nm"
      (by decide)).1,
   (unitless_modify_appends acceptingConn sampleEntry unitlessStore "color" "red" "green" "nm"
      (by decide)).2.1⟩

/-- C18 (unit-less remove is a local no-op): a `removeAttribute(n, v, "")` whose
remote call succeeds removes nothing locally: the value sequence and the unit
sequence of every name are unchanged, every name other than `n` keeps its map
entries, and a cached triplet (`n`, `v`, "") stays where it was.  (The
equal-length invariant is not needed for this.) -/
theorem unitless_remove_noop (conn : RodsConnection) (objEntry : RodsObjEntry)
    (md : RodsObjMetadata) (n v : String)
    (hs : 0 ≤ conn.rcModAVUMetadata (removeAttributeInp objEntry n v "")) :
    (∀ k,
      (md.removeAttribute conn objEntry n v "").2.attrValues.seq k = md.attrValues.seq k ∧
      (md.removeAttribute conn objEntry n v "").2.attrUnits.seq k = md.attrUnits.seq k) ∧
    (∀ k, k ≠ n →
      (md.removeAttribute conn objEntry n v "").2.attrValues k = md.attrValues k ∧
      (md.removeAttribute conn objEntry n v "").2.attrUnits k = md.attrUnits k) ∧
    (∀ i, HasTriplet md n v "" i →
      HasTriplet (md.removeAttribute conn objEntry n v "").2 n v "" i) := by
  have hscan : removeScan v "" (md.attrValues.seq n) (md.attrUnits.seq n) 0 =
      (md.attrValues.seq n, md.attrUnits.seq n) :=
    removeScan_noMatch _ _ _ _ 0 (fun j _ _ => tripletMatches_unitless _ _ _)
  rw [removeAttribute_success conn objEntry md n v "" hs, hscan]
  have hother : ∀ k, k ≠ n →
      (md.attrValues.subscript n).assign n (md.attrValues.seq n) k = md.attrValues k ∧
      (md.attrUnits.subscript n).assign n (md.attrUnits.seq n) k = md.attrUnits k := by
    intro k hk
    exact ⟨by rw [KeyVals.assign_other _ _ _ _ hk, KeyVals.subscript_other _ _ _ hk],
      by rw [KeyVals.assign_other _ _ _ _ hk, KeyVals.subscript_other _ _ _ hk]⟩
  have hsame : ((md.attrValues.subscript n).assign n (md.attrValues.seq n)).seq n =
      md.attrValues.seq n ∧
      ((md.attrUnits.subscript n).assign n (md.attrUnits.seq n)).seq n = md.attrUnits.seq n := by
    simp [KeyVals.seq, KeyVals.assign_same]
  refine ⟨?_, hother, ?_⟩
  · intro k
    by_cases hk : k = n
    · subst hk
      exact hsame
    · have h := hother k hk
      constructor
      · show Option.getD ((md.attrValues.subscript n).assign n (md.attrValues.seq n) k) [] =
          Option.getD (md.attrValues k) []
        rw [h.1]
      · show Option.getD ((md.attrUnits.subscript n).assign n (md.attrUnits.seq n) k) [] =
          Option.getD (md.attrUnits k) []
        rw [h.2]
  · rintro i ⟨hv, hu⟩
    constructor
    · show (((md.attrValues.subscript n).assign n (md.attrValues.seq n)).seq n)[i]? = some v
      rw [hsame.1]
      exact hv
    · show (((md.attrUnits.subscript n).assign n (md.attrUnits.seq n)).seq n)[i]? = some ""
      rw [hsame.2]
      exact hu

/-- C18, concrete instance: the store caches (color, red, "") as a `refresh`
with empty units leaves it; an accepted `remove("color","red","")` keeps red,
blue and their empty units. -/
theorem unitless_remove_noop_witness :
    (RodsObjMetadata.new.refresh acceptingConn sampleEntry).2.attrValues "color" =
      unitlessStore.attrValues "color" ∧
    HasTriplet unitlessStore "color" "red" "" 0 ∧
    (unitlessStore.removeAttribute acceptingConn sampleEntry "color" "red" "").2.attrValues.seq
      "color" = ["red", "blue"] ∧
    (unitlessStore.removeAttribute acceptingConn sampleEntry "color" "red" "").2.attrUnits.seq
      "color" = ["", ""] ∧
    HasTriplet (unitlessStore.removeAttribute acceptingConn sampleEntry "color" "red" "").2
      "color" "red" "" 0 := by
  have h := unitless_remove_noop acceptingConn sampleEntry unitlessStore "color" "red"
    (by decide)
  refine ⟨?_, ⟨rfl, rfl⟩, (h.1 "color").1, (h.1 "color").2, h.2.2 0 ⟨rfl, rfl⟩⟩
  rw [refresh_success acceptingConn sampleEntry RodsObjMetadata.new (by decide),
    refreshLoop_new_attrValues]
  rfl

/-- C19 (key creation on success): when `n` is a key of neither map, a
`removeAttribute(n, v, u)` whose remote call succeeds makes `n` a key of both maps
with empty sequences, so the maps `getValues` and `getUnits` return differ from
those before the call; a `modifyAttribute` on `n` whose remote call succeeds makes
`n` a key of both maps with the single entries `newValue` and `newUnit`; and when
the remote call fails, neither operation inserts the key. -/
theorem key_creation_on_success (conn : RodsConnection) (objEntry : RodsObjEntry)
    (md : RodsObjMetadata) (n v u newValue newUnit : String)
    (hv : md.attrValues n = none) (hu : md.attrUnits n = none) :
    (0 ≤ conn.rcModAVUMetadata (removeAttributeInp objEntry n v u) →
      (md.removeAttribute conn objEntry n v u).2.attrValues n = some [] ∧
      (md.removeAttribute conn objEntry n v u).2.attrUnits n = some [] ∧
      (md.removeAttribute conn objEntry n v u).2.getValues ≠ md.getValues ∧
      (md.removeAttribute conn objEntry n v u).2.getUnits ≠ md.getUnits) ∧
    (0 ≤ conn.rcModAVUMetadata (modifyAttributeInp objEntry n v newValue u newUnit) →
      (md.modifyAttribute conn objEntry n v newValue u newUnit).2.attrValues n =
        some [newValue] ∧
      (md.modifyAttribute conn objEntry n v newValue u newUnit).2.attrUnits n =
        some [newUnit]) ∧
    (conn.rcModAVUMetadata (removeAttributeInp objEntry n v u) < 0 →
      (md.removeAttribute conn objEntry n v u).2.attrValues n = none ∧
      (md.removeAttribute conn objEntry n v u).2.attrUnits n = none) ∧
    (conn.rcModAVUMetadata (modifyAttributeInp objEntry n v newValue u newUnit) < 0 →
      (md.modifyAttribute conn objEntry n v newValue u newUnit).2.attrValues n = none ∧
      (md.modifyAttribute conn objEntry n v newValue u newUnit).2.attrUnits n = none) := by
  have hsv : md.attrValues.seq n = [] := by simp [KeyVals.seq, hv]
  have hsu : md.attrUnits.seq n = [] := by simp [KeyVals.seq, hu]
  refine ⟨?_, ?_, ?_, ?_⟩
  · intro hs
    have hscan : removeScan v u [] [] 0 = ([], []) := by
      rw [removeScan, dif_neg (by simp)]
    rw [removeAttribute_success conn objEntry md n v u hs, hsv, hsu, hscan]
    refine ⟨KeyVals.assign_same _ _ _, KeyVals.assign_same _ _ _, ?_, ?_⟩
    · intro h
      have := congrFun h n
      simp [RodsObjMetadata.getValues, KeyVals.assign_same, hv] at this
    · intro h
      have := congrFun h n
      simp [RodsObjMetadata.getUnits, KeyVals.assign_same, hu] at this
  · intro hs
    have hscan : modifyScan v newValue u newUnit [] [] 0 = ([newValue], [newUnit]) := by
      rw [modifyScan, dif_neg (by simp)]
      rfl
    rw [modifyAttribute_success conn objEntry md n v newValue u newUnit hs, hsv, hsu, hscan]
    exact ⟨KeyVals.assign_same _ _ _, KeyVals.assign_same _ _ _⟩
  · intro hs
    simp only [RodsObjMetadata.removeAttribute, if_pos hs]
    exact ⟨hv, hu⟩
  · intro hs
    simp only [RodsObjMetadata.modifyAttribute, if_pos hs]
    exact ⟨hv, hu⟩

/-- C19, concrete instance: `size` is no key of the sample store; an accepted
`remove("size","1","kb")` leaves it as a key with empty sequences, an accepted
`modify("size","1","2","kb","mb")` as a key with the entries 2 and mb, and the
rejected calls leave it absent. -/
theorem key_creation_on_success_witness :
    sampleStore.attrValues "size" = none ∧
    sampleStore.attrUnits "size" = none ∧
    (sampleStore.removeAttribute acceptingConn sampleEntry "size" "1" "kb").2.attrValues "size"
      = some [] ∧
    (sampleStore.removeAttribute acceptingConn sampleEntry "size" "1" "kb").2.attrUnits "size"
      = some [] ∧
    (sampleStore.modifyAttribute acceptingConn sampleEntry "size" "1" "2" "kb" "mb").2.attrValues
      "size" = some ["2"] ∧
    (sampleStore.modifyAttribute acceptingConn sampleEntry "size" "1" "2" "kb" "mb").2.attrUnits
      "size" = some ["mb"] ∧
    (sampleStore.removeAttribute rejectingConn sampleEntry "size" "1" "kb").2.attrValues "size"
      = none ∧
    (sampleStore.modifyAttribute rejectingConn sampleEntry "size" "1" "2" "kb" "mb").2.attrValues
      "size" = none :=
  have ha := key_creation_on_success acceptingConn sampleEntry sampleStore "size" "1" "kb"
    "2" "mb" rfl rfl
  have hr := key_creation_on_success rejectingConn sampleEntry sampleStore "size" "1" "kb"
    "2" "mb" rfl rfl
  have ha1 := ha.1 (by decide)
  have ha2 := ha.2.1 (by decide)
  have hr1 := hr.2.2.1 (by decide)
  have hr2 := hr.2.2.2 (by decide)
  ⟨rfl, rfl, ha1.1, ha1.2.1, ha2.1, ha2.2, hr1.1, hr2.1⟩

/-- C20 (store-remove primitive), evaluated at the inputs where the code departs
from it.  With the values a, b under `attr` and the target b, the scan erases the
last entry and increments its iterator beyond the new end, so it steps past the
end of the sequence (reported as `none`); with the values v, v under `k` and the
target v, the scan erases index 0, skips the entry that moved there, and ends
with an entry equal to the target still in the sequence.  An absent key leaves
the store unchanged. -/
theorem removeFromKeyVals_defects :
    sampleStore.attrValues "attr" = some ["a", "b"] ∧
    removeFromKeyVals sampleStore.attrValues "attr" "b" = none ∧
    duplicateStore.attrValues "k" = some ["v", "v"] ∧
    (∃ keyVals1, removeFromKeyVals duplicateStore.attrValues "k" "v" = some keyVals1 ∧
      keyVals1 "k" = some ["v"] ∧ "v" ∈ keyVals1.seq "k") ∧
    removeFromKeyVals sampleStore.attrValues "size" "b" = some sampleStore.attrValues := by
  have h1 : removeFromKeyValsScan "b" ["a", "b"] 0 = none := by
    simp [removeFromKeyValsScan]
  have h2 : removeFromKeyValsScan "v" ["v", "v"] 0 = some ["v"] := by
    simp [removeFromKeyValsScan]
  have hv : duplicateStore.attrValues "k" = some ["v", "v"] := by
    simp [duplicateStore, RodsObjMetadata.addAttribute, acceptingConn,
      RodsObjMetadata.addToStore, addToKeyVals_same, KeyVals.seq, RodsObjMetadata.new,
      KeyVals.empty]
  refine ⟨rfl, ?_, hv, ?_, rfl⟩
  · simp [removeFromKeyVals, sampleStore, h1]
  · refine ⟨duplicateStore.attrValues.assign "k" ["v"], ?_, KeyVals.assign_same _ _ _, ?_⟩
    · simp [removeFromKeyVals, hv, h2]
    · simp [KeyVals.seq, KeyVals.assign_same]

end Kanki
